import Mathlib

/-!
Verification of the rusty-schema-diff comparison engine against its
specification. The definitions below are a shallow embedding of the
repository's Rust source (src/analyzer.rs, src/migration.rs, src/report.rs,
src/analyzer/{sql,openapi,protobuf,json_schema}.rs): parsed document shapes
become inductive types, the comparison functions become Lean functions on
them, and machine integers become Nat/Int with the source's saturating or
wrapping behavior made explicit. Rust panics (todo!, unwrap on a failing
conversion) are modelled as Option.none. Debug-formatted metadata strings
are rendered without braces (parentheses instead), which is immaterial to
every property proved here.
-/

namespace SchemaDiff

/-! ## Change model (src/analyzer.rs) -/

/-- `ChangeType` from src/analyzer.rs. -/
inductive ChangeType where
  | addition
  | removal
  | modification
  | rename
deriving DecidableEq, Repr

/-- `SchemaChange` from src/analyzer.rs. `metadata` is a `HashMap<String,String>`
in the source; modelled as an insertion-ordered association list. -/
structure SchemaChange where
  change_type : ChangeType
  location : String
  description : String
  metadata : List (String × String)
deriving DecidableEq, Repr

/-! ## Report model (src/report.rs) -/

/-- `IssueSeverity` from src/report.rs. -/
inductive IssueSeverity where
  | error
  | warning
  | info
deriving DecidableEq, Repr

/-- `CompatibilityIssue` from src/report.rs. -/
structure CompatibilityIssue where
  severity : IssueSeverity
  description : String
  location : String
deriving DecidableEq, Repr

/-- `ValidationError` from src/report.rs. -/
structure ValidationError where
  message : String
  path : String
  code : String
deriving DecidableEq, Repr

/-- `ValidationResult` from src/report.rs. -/
structure ValidationResult where
  is_valid : Bool
  errors : List ValidationError
  context : List (String × String)
deriving DecidableEq, Repr

/-- `CompatibilityReport` from src/report.rs. `compatibility_score` is a `u8`
in the source, modelled as `Nat` (every store into it is made explicit where
the source casts). -/
structure CompatibilityReport where
  changes : List SchemaChange
  compatibility_score : Nat
  is_compatible : Bool
  issues : List CompatibilityIssue
  metadata : List (String × String)
deriving DecidableEq, Repr

/-- `SchemaDiffError` from src/error.rs (payloads kept as strings). -/
inductive SchemaDiffError where
  | parseError (msg : String)
  | comparisonError (msg : String)
  | invalidFormat (msg : String)
  | ioError (msg : String)
  | jsonError (msg : String)
  | protobufError (msg : String)
deriving DecidableEq, Repr

/-! ## String helpers: Rust `str::contains` / `str::ends_with` over char lists. -/

/-- Rust `str::contains(pat)`: `pat` occurs as a contiguous substring. -/
def listHasSub (pat : List Char) : List Char → Bool
  | [] => pat.isEmpty
  | c :: rest => pat.isPrefixOf (c :: rest) || listHasSub pat rest

/-- Rust `str::contains` on `String`s. -/
def strHasSub (s pat : String) : Bool := listHasSub pat.toList s.toList

/-- Rust `str::ends_with` on `String`s. -/
def strEndsWith (s pat : String) : Bool := pat.toList.isSuffixOf s.toList

/-! ## Migration planner (src/migration.rs) -/

/-- The per-change weight of `MigrationPlan::calculate_impact`
(src/migration.rs lines 63-67). -/
def impactWeight : ChangeType → Nat
  | .addition => 25
  | .removal => 100
  | .modification => 50
  | .rename => 30

/-- `MigrationPlan::calculate_impact` (src/migration.rs): maximum per-change
weight, `unwrap_or(0)` on the empty sequence, clamped by `.min(100)`. -/
def calculate_impact (changes : List SchemaChange) : Nat :=
  (((changes.map fun c => impactWeight c.change_type).max?).getD 0).min 100

/-- `MigrationPlan::detect_breaking_changes` (src/migration.rs): any change
matching `Removal | Modification`. -/
def detect_breaking_changes (changes : List SchemaChange) : Bool :=
  changes.any fun c =>
    match c.change_type with
    | .removal => true
    | .modification => true
    | _ => false

/-- `MigrationPlan` from src/migration.rs. -/
structure MigrationPlan where
  source_version : String
  target_version : String
  changes : List SchemaChange
  impact_score : Nat
  is_breaking : Bool
deriving DecidableEq, Repr

/-- `MigrationPlan::new` (src/migration.rs). -/
def MigrationPlan.new (source_version target_version : String)
    (changes : List SchemaChange) : MigrationPlan :=
  { source_version := source_version
    target_version := target_version
    changes := changes
    impact_score := calculate_impact changes
    is_breaking := detect_breaking_changes changes }

/-- Shorthand for a change with the given type (the planner reads nothing
else), used to state planner properties. -/
def mkChange (t : ChangeType) (loc desc : String) : SchemaChange :=
  { change_type := t, location := loc, description := desc, metadata := [] }

/-! ## SQL DDL analyzer (src/analyzer/sql.rs)

The external collaborator `sqlparser` supplies parsed statements; the
analyzer's inputs are modelled as the parse results
(`Except SchemaDiffError (List SqlStatement)`), mirroring
`parse_tables(&schema.content)`. `sqlparser::ast::ColumnOption` has more
variants than the three the analyzer's match arms name; `otherOpt` stands
for all of them (the code's `_ => false` arm). -/

/-- The column options of `sqlparser::ast::ColumnOption` as used by
`compare_column_constraints`: `NotNull`, `Default(expr)`,
`Unique { is_primary, characteristics }`, and a catch-all for every other
variant. Payloads the analyzer never inspects are kept as rendered strings. -/
inductive ColumnOption where
  | notNull
  | defaultVal (value : String)
  | unique (is_primary : Bool) (characteristics : String)
  | otherOpt (payload : String)
deriving DecidableEq, Repr

/-- The Debug rendering `format!("{:?}", opt)` of a column option, used in
descriptions and metadata (brace-free rendering). -/
def ColumnOption.render : ColumnOption → String
  | .notNull => "NotNull"
  | .defaultVal v => "Default(" ++ v ++ ")"
  | .unique p c =>
      "Unique(is_primary: " ++ (if p then "true" else "false")
        ++ ", characteristics: " ++ c ++ ")"
  | .otherOpt s => s

/-- `sqlparser::ast::ColumnDef` as the analyzer reads it: name, declared data
type (Debug-rendered, compared only for equality), and the list of
`options[i].option` values (`compare_columns` maps `opt.option` out of each
`ColumnOptionDef`). -/
structure ColumnDef where
  name : String
  data_type : String
  options : List ColumnOption
deriving DecidableEq, Repr

/-- `sqlparser::ast::Statement` as the analyzer reads it: only
`CreateTable { name, columns }` is examined, every other statement kind is
`otherStmt`. -/
inductive SqlStatement where
  | createTable (name : String) (columns : List ColumnDef)
  | otherStmt
deriving DecidableEq, Repr

/-- The match inside both `any` closures of
`SqlAnalyzer::compare_column_constraints` (src/analyzer/sql.rs lines
239-247 and 268-276): same kind, and for `Unique` equal `is_primary`
(characteristics ignored); every other pairing is `false`. -/
def sqlConstraintMatches (old_opt new_opt : ColumnOption) : Bool :=
  match old_opt, new_opt with
  | .notNull, .notNull => true
  | .defaultVal _, .defaultVal _ => true
  | .unique p _, .unique q _ => p == q
  | _, _ => false

/-- The `Removal` change `compare_column_constraints` pushes for an old
option not found in the new options. -/
def sqlConstraintRemoval (table_name column_name : String)
    (opt : ColumnOption) : SchemaChange :=
  { change_type := .removal
    location := table_name ++ "/" ++ column_name ++ "/constraints"
    description := "Constraint removed from column '" ++ column_name ++ "': "
      ++ opt.render
    metadata := [("table", table_name), ("column", column_name),
      ("constraint", opt.render)] }

/-- The `Addition` change `compare_column_constraints` pushes for a new
option not found in the old options. -/
def sqlConstraintAddition (table_name column_name : String)
    (opt : ColumnOption) : SchemaChange :=
  { change_type := .addition
    location := table_name ++ "/" ++ column_name ++ "/constraints"
    description := "New constraint added to column '" ++ column_name ++ "': "
      ++ opt.render
    metadata := [("table", table_name), ("column", column_name),
      ("constraint", opt.render)] }

/-- `SqlAnalyzer::compare_column_constraints` (src/analyzer/sql.rs lines
228-293): first loop pushes a `Removal` for each old option with no match in
the new options, second loop an `Addition` for each new option with no match
in the old options. -/
def compare_column_constraints (table_name column_name : String)
    (old_options new_options : List ColumnOption) : List SchemaChange :=
  ((old_options.filter fun o => ! new_options.any fun n => sqlConstraintMatches o n).map
    (sqlConstraintRemoval table_name column_name))
  ++ ((new_options.filter fun n => ! old_options.any fun o => sqlConstraintMatches o n).map
    (sqlConstraintAddition table_name column_name))

/-- The `Modification` change `compare_columns` pushes for a column whose
declared data type differs. -/
def sqlTypeModification (table_name : String) (old_col new_col : ColumnDef) :
    SchemaChange :=
  { change_type := .modification
    location := table_name ++ "/" ++ old_col.name
    description := "Column '" ++ old_col.name ++ "' type changed from "
      ++ old_col.data_type ++ " to " ++ new_col.data_type
    metadata := [("table", table_name), ("column", old_col.name),
      ("old_type", old_col.data_type), ("new_type", new_col.data_type)] }

/-- `SqlAnalyzer::compare_columns` (src/analyzer/sql.rs lines 161-226):
columns matched by name; a matched pair contributes a data-type
`Modification` when the types differ plus the constraint comparison; an
unmatched old column a `Removal`; the final scan an `Addition` per unmatched
new column. -/
def compare_columns (table_name : String)
    (old_columns new_columns : List ColumnDef) : List SchemaChange :=
  ((old_columns.map fun old_col =>
    match new_columns.find? fun c => c.name == old_col.name with
    | some new_col =>
        (if old_col.data_type != new_col.data_type then
          [sqlTypeModification table_name old_col new_col]
        else [])
        ++ compare_column_constraints table_name old_col.name
            old_col.options new_col.options
    | none =>
        [{ change_type := .removal
           location := table_name ++ "/" ++ old_col.name
           description := "Column '" ++ old_col.name ++ "' was removed"
           metadata := [("table", table_name), ("column", old_col.name)] }]).flatten)
  ++ ((new_columns.filter fun c => ! old_columns.any fun o => o.name == c.name).map
    fun new_col =>
      { change_type := .addition
        location := table_name ++ "/" ++ new_col.name
        description := "New column '" ++ new_col.name ++ "' was added"
        metadata := [("table", table_name), ("column", new_col.name)] })

/-- Whether a statement is a `CREATE TABLE` with the given name (the finder
closures of `compare_schemas`). -/
def isCreateTableNamed (name : String) : SqlStatement → Bool
  | .createTable n _ => n == name
  | .otherStmt => false

/-- `SqlAnalyzer::compare_schemas` (src/analyzer/sql.rs lines 100-159).
Faithful to the source's `if let (Ok(old_tables), Ok(new_tables))`: when
either parse result is an error the whole comparison silently produces no
changes. -/
def sql_compare_schemas
    (old_parse new_parse : Except SchemaDiffError (List SqlStatement)) :
    List SchemaChange :=
  match old_parse, new_parse with
  | .ok old_tables, .ok new_tables =>
      ((old_tables.map fun ot =>
        match ot with
        | .createTable name old_columns =>
          match new_tables.find? (isCreateTableNamed name) with
          | some (.createTable _ new_columns) =>
              compare_columns name old_columns new_columns
          | some .otherStmt => []
          | none =>
              [{ change_type := .removal
                 location := "table/" ++ name
                 description := "Table '" ++ name ++ "' was removed"
                 metadata := [("table", name)] }]
        | .otherStmt => []).flatten)
      ++ ((new_tables.map fun nt =>
        match nt with
        | .createTable name _ =>
            if old_tables.any (isCreateTableNamed name) then []
            else
              [{ change_type := .addition
                 location := "table/" ++ name
                 description := "New table '" ++ name ++ "' was added"
                 metadata := [("table", name)] }]
        | .otherStmt => []).flatten)
  | _, _ => []

/-- `u8::saturating_add` on the deduction accumulator. -/
def satAddU8 (a b : Nat) : Nat := min (a + b) 255

/-- The per-change deduction of `SqlAnalyzer::calculate_compatibility_score`
(src/analyzer/sql.rs lines 299-306). -/
def sqlDeduction : ChangeType → Nat
  | .addition => 5
  | .removal => 15
  | .modification => 10
  | .rename => 8

/-- `SqlAnalyzer::calculate_compatibility_score` (src/analyzer/sql.rs lines
295-309): `u8` deductions accumulated with `saturating_add`, then
`100.saturating_sub(deductions)` (Nat subtraction is that saturation). -/
def sql_calculate_compatibility_score (changes : List SchemaChange) : Nat :=
  100 - changes.foldl (fun d c => satAddU8 d (sqlDeduction c.change_type)) 0

/-- `SqlAnalyzer::validate_change` (src/analyzer/sql.rs lines 311-331). -/
def sql_validate_change (change : SchemaChange) : Option CompatibilityIssue :=
  match change.change_type with
  | .removal =>
      some { severity := .error
             description := "Breaking change: " ++ change.description
             location := change.location }
  | .modification =>
      if strHasSub change.location "type" then
        some { severity := .warning
               description := "Potential data loss: " ++ change.description
               location := change.location }
      else none
  | _ => none

/-- The severity-to-code mapping of `SqlAnalyzer::validate_changes`
(src/analyzer/sql.rs lines 82-86). -/
def sqlSeverityCode : IssueSeverity → String
  | .error => "SQL001"
  | .warning => "SQL002"
  | .info => "SQL003"

/-- `SqlAnalyzer::validate_changes` (src/analyzer/sql.rs lines 74-96); the
source always returns `Ok`, so the `Result` wrapper is dropped here. -/
def sql_validate_changes (changes : List SchemaChange) : ValidationResult :=
  let errors := changes.filterMap fun c =>
    (sql_validate_change c).map fun issue =>
      { message := issue.description
        path := issue.location
        code := sqlSeverityCode issue.severity }
  { is_valid := errors.isEmpty, errors := errors, context := [] }

/-- The code-to-severity mapping `SqlAnalyzer::analyze_compatibility` applies
when turning validation errors into report issues (src/analyzer/sql.rs lines
41-45). -/
def sqlIssueSeverityOfCode (code : String) : IssueSeverity :=
  if code == "SQL001" then .error
  else if code == "SQL002" then .warning
  else .info

/-- `SqlAnalyzer::analyze_compatibility` (src/analyzer/sql.rs lines 27-51),
over the two parse results. The source can only return `Ok` (its `?` is on a
`validate_changes` that never errors), so every outcome is `.ok`. -/
def sql_analyze_compatibility
    (old_parse new_parse : Except SchemaDiffError (List SqlStatement)) :
    Except SchemaDiffError CompatibilityReport :=
  let changes := sql_compare_schemas old_parse new_parse
  let compatibility_score := sql_calculate_compatibility_score changes
  let validation_result := sql_validate_changes changes
  .ok { changes := changes
        compatibility_score := compatibility_score
        is_compatible := decide (80 ≤ compatibility_score)
        issues := validation_result.errors.map fun err =>
          { severity := sqlIssueSeverityOfCode err.code
            description := err.message
            location := err.path }
        metadata := [] }

/-- `SqlAnalyzer::generate_migration_path` (src/analyzer/sql.rs lines 63-72). -/
def sql_generate_migration_path (old_version new_version : String)
    (old_parse new_parse : Except SchemaDiffError (List SqlStatement)) :
    Except SchemaDiffError MigrationPlan :=
  .ok (MigrationPlan.new old_version new_version
    (sql_compare_schemas old_parse new_parse))

/-! ## JSON Schema analyzer (src/analyzer/json_schema.rs)

`serde_json::Value` is modelled as a mutual inductive (values, arrays,
fields) since Lean 4.14 lacks nested-inductive deriving. The source renders
changed values with `to_string()` (metadata) and `{:?}` (description); both
are modelled by one brace-free rendering, immaterial to every property
proved here. -/

mutual
/-- `serde_json::Value`. -/
inductive Json where
  | null
  | jbool (b : Bool)
  | num (n : Int)
  | str (s : String)
  | arr (items : JsonList)
  | obj (fields : JsonFields)
deriving DecidableEq, Repr
/-- An array's elements. -/
inductive JsonList where
  | nil
  | cons (head : Json) (tail : JsonList)
deriving DecidableEq, Repr
/-- An object's key-value fields, in iteration order. -/
inductive JsonFields where
  | fnil
  | fcons (key : String) (val : Json) (tail : JsonFields)
deriving DecidableEq, Repr
end

/-- `serde_json::Map::get`: the value at the first matching key. -/
def JsonFields.lookup (key : String) : JsonFields → Option Json
  | .fnil => none
  | .fcons k v t => if k == key then some v else JsonFields.lookup key t

/-- `serde_json::Map::contains_key`. -/
def JsonFields.containsKey (key : String) : JsonFields → Bool
  | .fnil => false
  | .fcons k _ t => k == key || JsonFields.containsKey key t

/-- The keys of an object, in iteration order. -/
def JsonFields.keys : JsonFields → List String
  | .fnil => []
  | .fcons k _ t => k :: JsonFields.keys t

/-- The key-value entries of an object, in iteration order. -/
def JsonFields.entries : JsonFields → List (String × Json)
  | .fnil => []
  | .fcons k v t => (k, v) :: JsonFields.entries t

/-- `Vec::len` of an array's elements. -/
def JsonList.length : JsonList → Nat
  | .nil => 0
  | .cons _ t => 1 + JsonList.length t

mutual
/-- Brace-free rendering of a JSON value, standing for the source's
`to_string()` / `{:?}` output in change descriptions and metadata. -/
def Json.render : Json → String
  | .null => "Null"
  | .jbool b => "Bool(" ++ (if b then "true" else "false") ++ ")"
  | .num n => "Number(" ++ toString n ++ ")"
  | .str s => "String(" ++ s ++ ")"
  | .arr xs => "Array(" ++ JsonList.renderL xs ++ ")"
  | .obj fs => "Object(" ++ JsonFields.renderF fs ++ ")"
/-- Rendering of array elements. -/
def JsonList.renderL : JsonList → String
  | .nil => ""
  | .cons h t => Json.render h ++ "," ++ JsonList.renderL t
/-- Rendering of object fields. -/
def JsonFields.renderF : JsonFields → String
  | .fnil => ""
  | .fcons k v t => k ++ ": " ++ Json.render v ++ "," ++ JsonFields.renderF t
end

/-- The `Removal` change `compare_objects` pushes for a key absent from the
new object. -/
def jsonRemoval (path key : String) : SchemaChange :=
  { change_type := .removal
    location := path ++ "/" ++ key
    description := "Property '" ++ key ++ "' was removed"
    metadata := [("property", key)] }

/-- The `Addition` change `compare_objects` pushes for a key absent from the
old object. -/
def jsonAddition (path key : String) : SchemaChange :=
  { change_type := .addition
    location := path ++ "/" ++ key
    description := "New property '" ++ key ++ "' was added"
    metadata := [("property", key)] }

/-- The second loop of `JsonSchemaAnalyzer::compare_objects`
(src/analyzer/json_schema.rs lines 200-213): an `Addition` per new-object key
missing from the old object. Recurses over the new object's fields. -/
def json_added_fields (old_obj : JsonFields) : JsonFields → String → List SchemaChange
  | .fnil, _ => []
  | .fcons k _ t, path =>
    (if old_obj.containsKey k then [] else [jsonAddition path k])
      ++ json_added_fields old_obj t path

mutual
/-- `JsonSchemaAnalyzer::compare_schemas` (src/analyzer/json_schema.rs lines
80-102): object-vs-object and array-vs-array recurse; any other unequal pair
is one `Modification` carrying both rendered values. -/
def json_compare_schemas (old new : Json) (path : String) : List SchemaChange :=
  match old, new with
  | .obj old_obj, .obj new_obj =>
      json_compare_fields old_obj new_obj path
        ++ json_added_fields old_obj new_obj path
  | .arr old_arr, .arr new_arr =>
      (if old_arr.length != new_arr.length then
        [{ change_type := .modification
           location := path
           description := "Array length changed from "
             ++ toString old_arr.length ++ " to " ++ toString new_arr.length
           metadata := [("old_length", toString old_arr.length),
             ("new_length", toString new_arr.length)] }]
      else [])
      ++ json_compare_elems old_arr new_arr path 0
  | o, n =>
      if o = n then []
      else
        [{ change_type := .modification
           location := path
           description := "Value changed from " ++ o.render ++ " to " ++ n.render
           metadata := [("old_value", o.render), ("new_value", n.render)] }]
/-- The first loop of `JsonSchemaAnalyzer::compare_objects` (lines 184-198):
keys in both recurse, keys only in the old object emit a `Removal`. -/
def json_compare_fields (oldF : JsonFields) (newF : JsonFields) (path : String) :
    List SchemaChange :=
  match oldF with
  | .fnil => []
  | .fcons k v rest =>
    (match newF.lookup k with
     | some nv => json_compare_schemas v nv (path ++ "/" ++ k)
     | none => [jsonRemoval path k])
    ++ json_compare_fields rest newF path
/-- The pairwise loop of `JsonSchemaAnalyzer::compare_arrays` (line 230):
elements compared by index up to the shorter length (`zip`). -/
def json_compare_elems (oldL newL : JsonList) (path : String) (idx : Nat) :
    List SchemaChange :=
  match oldL, newL with
  | .cons o os, .cons n ns =>
      json_compare_schemas o n (path ++ "/" ++ toString idx)
        ++ json_compare_elems os ns path (idx + 1)
  | _, _ => []
end

/-- The per-change deduction of
`JsonSchemaAnalyzer::calculate_compatibility_score`
(src/analyzer/json_schema.rs lines 104-118). -/
def jsonDeduction : ChangeType → Nat
  | .addition => 5
  | .removal => 20
  | .modification => 10
  | .rename => 8

/-- `JsonSchemaAnalyzer::calculate_compatibility_score`: `u8` deductions with
`saturating_add`, then `100.saturating_sub(deductions)`. -/
def json_calculate_compatibility_score (changes : List SchemaChange) : Nat :=
  100 - changes.foldl (fun d c => satAddU8 d (jsonDeduction c.change_type)) 0

/-- `JsonSchemaAnalyzer::analyze_compatibility` (src/analyzer/json_schema.rs
lines 26-43) over the two `serde_json::from_str` parse results; a parse
failure propagates through `?`. Issues are always empty for this dialect. -/
def json_analyze_compatibility
    (old_parse new_parse : Except SchemaDiffError Json) :
    Except SchemaDiffError CompatibilityReport :=
  match old_parse, new_parse with
  | .error e, _ => .error e
  | .ok _, .error e => .error e
  | .ok o, .ok n =>
      let changes := json_compare_schemas o n ""
      let compatibility_score := json_calculate_compatibility_score changes
      .ok { changes := changes
            compatibility_score := compatibility_score
            is_compatible := decide (80 ≤ compatibility_score)
            issues := []
            metadata := [] }

/-- `JsonSchemaAnalyzer::generate_migration_path` (lines 55-67). -/
def json_generate_migration_path (old_version new_version : String)
    (old_parse new_parse : Except SchemaDiffError Json) :
    Except SchemaDiffError MigrationPlan :=
  match old_parse, new_parse with
  | .error e, _ => .error e
  | .ok _, .error e => .error e
  | .ok o, .ok n =>
      .ok (MigrationPlan.new old_version new_version
        (json_compare_schemas o n ""))

/-! ## Protobuf analyzer (src/analyzer/protobuf.rs)

The external collaborator `protobuf::text_format` supplies the parsed
`FileDescriptorProto`; the comparison operates on descriptors. The source's
`todo!()` arms (`Rename` in `validate_change` and
`calculate_compatibility_score`) and the `try_into().unwrap()` on the final
score are Rust panics, modelled as `Option.none` in the result. -/

/-- `FieldDescriptorProto` as the analyzer reads it: `name()` and the
Debug-rendered `type_()` tag (compared only for equality). -/
structure FieldDescriptorProto where
  name : String
  type_tag : String
deriving DecidableEq, Repr

/-- `DescriptorProto` as the analyzer reads it: `name()` and `field`. -/
structure DescriptorProto where
  name : String
  field : List FieldDescriptorProto
deriving DecidableEq, Repr

/-- `FileDescriptorProto` as the analyzer reads it: `message_type`. -/
structure FileDescriptorProto where
  message_type : List DescriptorProto
deriving DecidableEq, Repr

/-- `ProtobufAnalyzer::compare_fields` (src/analyzer/protobuf.rs lines
153-210): fields matched by name; a matched pair with differing types is one
`Modification`, an unmatched old field a `Removal`, an unmatched new field an
`Addition`. -/
def proto_compare_fields (path : String) (old_msg new_msg : DescriptorProto) :
    List SchemaChange :=
  ((old_msg.field.map fun old_field =>
    match new_msg.field.find? fun f => f.name == old_field.name with
    | some new_field =>
        if old_field.type_tag != new_field.type_tag then
          [{ change_type := .modification
             location := path ++ "/" ++ old_msg.name ++ "/" ++ old_field.name
             description := "Field '" ++ old_field.name ++ "' type changed from "
               ++ old_field.type_tag ++ " to " ++ new_field.type_tag
             metadata := [("message", old_msg.name), ("field", old_field.name),
               ("old_type", old_field.type_tag), ("new_type", new_field.type_tag)] }]
        else []
    | none =>
        [{ change_type := .removal
           location := path ++ "/" ++ old_msg.name ++ "/" ++ old_field.name
           description := "Field '" ++ old_field.name ++ "' was removed"
           metadata := [("message", old_msg.name), ("field", old_field.name)] }]).flatten)
  ++ ((new_msg.field.filter fun f => ! old_msg.field.any fun o => o.name == f.name).map
    fun new_field =>
      { change_type := .addition
        location := path ++ "/" ++ new_msg.name ++ "/" ++ new_field.name
        description := "New field '" ++ new_field.name ++ "' was added"
        metadata := [("message", new_msg.name), ("field", new_field.name)] })

/-- `ProtobufAnalyzer::compare_descriptors` (src/analyzer/protobuf.rs lines
105-139): messages matched by name; matched pairs compare fields (via
`compare_messages`), unmatched old messages emit a `Removal`, unmatched new
messages an `Addition`. The source returns `Ok(())` always. -/
def proto_compare_descriptors (old new : FileDescriptorProto) (path : String) :
    List SchemaChange :=
  ((old.message_type.map fun old_msg =>
    match new.message_type.find? fun m => m.name == old_msg.name with
    | some new_msg => proto_compare_fields path old_msg new_msg
    | none =>
        [{ change_type := .removal
           location := path ++ "/" ++ old_msg.name
           description := "Message '" ++ old_msg.name ++ "' was removed"
           metadata := [] }]).flatten)
  ++ ((new.message_type.filter fun m => ! old.message_type.any fun o => o.name == m.name).map
    fun new_msg =>
      { change_type := .addition
        location := path ++ "/" ++ new_msg.name
        description := "Message '" ++ new_msg.name ++ "' was added"
        metadata := [] })

/-- The deduction loop of `ProtobufAnalyzer::calculate_compatibility_score`
(src/analyzer/protobuf.rs lines 237-246): additions free, removals 20,
modifications 10; the `Rename` arm is `todo!()` — a panic, modelled `none`. -/
def proto_deductions : List SchemaChange → Option Int
  | [] => some 0
  | c :: rest =>
    match c.change_type with
    | .addition => proto_deductions rest
    | .removal => (proto_deductions rest).map (20 + ·)
    | .modification => (proto_deductions rest).map (10 + ·)
    | .rename => none

/-- `ProtobufAnalyzer::calculate_compatibility_score` (lines 233-249):
`i32` arithmetic, `100.saturating_sub(deductions)` (plain subtraction here:
the `i32` saturation bound is unreachable); panics (`none`) if any change is
a `Rename`. -/
def proto_calculate_compatibility_score (changes : List SchemaChange) :
    Option Int :=
  (proto_deductions changes).map fun d => 100 - d

/-- `i32::try_into::<u8>()` followed by `unwrap()`: `none` is the panic. -/
def u8TryInto (i : Int) : Option Nat :=
  if 0 ≤ i ∧ i ≤ 255 then some i.toNat else none

/-- `ProtobufAnalyzer::validate_change` (src/analyzer/protobuf.rs lines
213-230): outer `none` is the `todo!()` panic on `Rename`; `some none` is the
no-issue outcome for `Addition`. -/
def proto_validate_change (change : SchemaChange) :
    Option (Option CompatibilityIssue) :=
  match change.change_type with
  | .removal =>
      some (some { severity := .error
                   description := "Breaking change: " ++ change.description
                   location := change.location })
  | .modification =>
      some (some { severity := .warning
                   description := "Potential compatibility issue: " ++ change.description
                   location := change.location })
  | .rename => none
  | .addition => some none

/-- The severity-to-code suffix of `ProtobufAnalyzer::validate_changes`
(lines 77-81). -/
def protoSeverityCode : IssueSeverity → String
  | .error => "001"
  | .warning => "002"
  | .info => "003"

/-- The error accumulation of `ProtobufAnalyzer::validate_changes` (lines
70-91); `none` when any change panics the per-change validation. -/
def proto_errors : List SchemaChange → Option (List ValidationError)
  | [] => some []
  | c :: rest =>
    match proto_validate_change c with
    | none => none
    | some none => proto_errors rest
    | some (some issue) =>
        (proto_errors rest).map fun errs =>
          { message := issue.description
            path := issue.location
            code := "PROTO" ++ protoSeverityCode issue.severity } :: errs

/-- `ProtobufAnalyzer::validate_changes` (src/analyzer/protobuf.rs lines
70-91); `none` is a panic, otherwise the source returns `Ok`. -/
def proto_validate_changes (changes : List SchemaChange) :
    Option ValidationResult :=
  (proto_errors changes).map fun errors =>
    { is_valid := errors.isEmpty, errors := errors, context := [] }

/-- `ProtobufAnalyzer::analyze_compatibility` (src/analyzer/protobuf.rs lines
27-44) over the two parsed descriptors: score via the panicking computation,
then `compatibility_score.try_into().unwrap()` into the `u8` report field
(`none` = the call panics); `is_compatible` is computed on the `i32` value
before the conversion. -/
def proto_analyze_compatibility (old new : FileDescriptorProto) :
    Option CompatibilityReport :=
  let changes := proto_compare_descriptors old new ""
  match proto_calculate_compatibility_score changes with
  | none => none
  | some score =>
    match u8TryInto score with
    | none => none
    | some stored =>
        some { changes := changes
               compatibility_score := stored
               is_compatible := decide (80 ≤ score)
               issues := []
               metadata := [] }

/-- `ProtobufAnalyzer::generate_migration_path` (lines 56-68) over the two
parsed descriptors. -/
def proto_generate_migration_path (old_version new_version : String)
    (old new : FileDescriptorProto) : MigrationPlan :=
  MigrationPlan.new old_version new_version
    (proto_compare_descriptors old new "")

/-! ## OpenAPI analyzer (src/analyzer/openapi.rs)

The `openapiv3` document tree is modelled with the fields the analyzer
reads: path items with the seven HTTP method slots, operations with
parameters, request body and responses, and named components. Bodies,
responses, component schema values and security schemes are compared only
for equality in the source, so they are kept opaque as strings. `IndexMap`s
become insertion-ordered association lists. -/

/-- `openapiv3::ReferenceOr`. -/
inductive RefOr (α : Type) where
  | item (value : α)
  | reference (r : String)
deriving DecidableEq, Repr

/-- `IndexMap::get`: the value at the first matching key. -/
def alookup {α : Type} (key : String) : List (String × α) → Option α
  | [] => none
  | (k, v) :: t => if k == key then some v else alookup key t

/-- `IndexMap::contains_key`. -/
def acontains {α : Type} (key : String) (l : List (String × α)) : Bool :=
  l.any fun p => p.1 == key

/-- The parameter's `in` location (`Path | Query | Header | Cookie`); the
analyzer matches all four the same way. -/
inductive ParameterKind where
  | path
  | query
  | header
  | cookie
deriving DecidableEq, Repr

/-- `openapiv3::Parameter` as the analyzer reads it: its kind, and from
`parameter_data` the `name` and `required` flag; everything the analyzer
never reads (schema/format, description, ...) is the opaque `rest`. -/
structure Parameter where
  kind : ParameterKind
  name : String
  required : Bool
  rest : String
deriving DecidableEq, Repr

/-- `openapiv3::Operation` as the analyzer reads it: parameters, request body
(opaque content), and the status-keyed responses map (opaque contents). -/
structure Operation where
  parameters : List (RefOr Parameter)
  request_body : Option (RefOr String)
  responses : List (String × String)
deriving DecidableEq, Repr

/-- `openapiv3::PathItem`: the seven HTTP method slots the analyzer walks. -/
structure PathItem where
  get : Option Operation
  post : Option Operation
  put : Option Operation
  delete : Option Operation
  patch : Option Operation
  head : Option Operation
  options : Option Operation
deriving DecidableEq, Repr

/-- `openapiv3::Components` as the analyzer reads it: named schemas and named
security schemes, both with opaque values compared only for equality. -/
structure Components where
  schemas : List (String × String)
  security_schemes : List (String × String)
deriving DecidableEq, Repr

/-- `openapiv3::OpenAPI` as the analyzer reads it. -/
structure OpenAPI where
  info_version : String
  paths : List (String × RefOr PathItem)
  components : Option Components
deriving DecidableEq, Repr

/-- The method list of `OpenApiAnalyzer::compare_operations`
(src/analyzer/openapi.rs line 195). -/
def methodNames : List String :=
  ["get", "post", "put", "delete", "patch", "head", "options"]

/-- `OpenApiAnalyzer::get_operation` (src/analyzer/openapi.rs lines 228-243). -/
def get_operation (item : PathItem) (method : String) : Option Operation :=
  if method == "get" then item.get
  else if method == "post" then item.post
  else if method == "put" then item.put
  else if method == "delete" then item.delete
  else if method == "patch" then item.patch
  else if method == "head" then item.head
  else if method == "options" then item.options
  else none

/-- The `Modification` that `compare_parameters` pushes for an
optional-to-required flip. -/
def paramRequiredModification (path method param_name : String) : SchemaChange :=
  { change_type := .modification
    location := "paths/" ++ path ++ "/" ++ method ++ "/parameters/" ++ param_name
    description := "Parameter '" ++ param_name ++ "' changed from optional to required"
    metadata := [("path", path), ("method", method), ("parameter", param_name)] }

/-- `OpenApiAnalyzer::compare_parameters` (src/analyzer/openapi.rs lines
426-487): for each inline old parameter, the first new parameter with the
same name (ignoring the `in` kind) is found; only a required flag going from
`false` to `true` emits a change. References and unmatched parameters emit
nothing. -/
def openapi_compare_parameters (path method : String)
    (old_params new_params : List (RefOr Parameter)) : List SchemaChange :=
  (old_params.map fun op =>
    match op with
    | .reference _ => []
    | .item old_param =>
      match new_params.find? fun p =>
          match p with
          | .item q => q.name == old_param.name
          | .reference _ => false with
      | some (.item new_param) =>
          if !old_param.required && new_param.required then
            [paramRequiredModification path method old_param.name]
          else []
      | _ => []).flatten

/-- `OpenApiAnalyzer::compare_request_bodies` (src/analyzer/openapi.rs lines
490-527). -/
def openapi_compare_request_bodies (path method : String)
    (old_body new_body : Option (RefOr String)) : List SchemaChange :=
  match old_body, new_body with
  | some _, none =>
      [{ change_type := .removal
         location := "/paths" ++ path ++ "/" ++ method ++ "/requestBody"
         description := "Request body was removed"
         metadata := [] }]
  | none, some _ =>
      [{ change_type := .addition
         location := "/paths" ++ path ++ "/" ++ method ++ "/requestBody"
         description := "Request body was added"
         metadata := [] }]
  | some ob, some nb =>
      if ob != nb then
        [{ change_type := .modification
           location := "/paths" ++ path ++ "/" ++ method ++ "/requestBody"
           description := "Request body was modified"
           metadata := [] }]
      else []
  | none, none => []

/-- `OpenApiAnalyzer::compare_responses` (src/analyzer/openapi.rs lines
530-573): statuses in both compare contents, statuses only in the old map
emit a `Removal`, statuses only in the new map an `Addition`. -/
def openapi_compare_responses (path method : String)
    (old_responses new_responses : List (String × String)) : List SchemaChange :=
  ((old_responses.map fun sr =>
    match alookup sr.1 new_responses with
    | some new_r =>
        if sr.2 != new_r then
          [{ change_type := .modification
             location := "/paths" ++ path ++ "/" ++ method ++ "/responses/" ++ sr.1
             description := "Response '" ++ sr.1 ++ "' was modified"
             metadata := [] }]
        else []
    | none =>
        [{ change_type := .removal
           location := "/paths" ++ path ++ "/" ++ method ++ "/responses/" ++ sr.1
           description := "Response '" ++ sr.1 ++ "' was removed"
           metadata := [] }]).flatten)
  ++ ((new_responses.filter fun sr => ! acontains sr.1 old_responses).map fun sr =>
      { change_type := .addition
        location := "/paths" ++ path ++ "/" ++ method ++ "/responses/" ++ sr.1
        description := "Response '" ++ sr.1 ++ "' was added"
        metadata := [] })

/-- `OpenApiAnalyzer::compare_operation_details` (src/analyzer/openapi.rs
lines 407-423): parameters, then request body, then responses. -/
def openapi_compare_operation_details (path method : String)
    (old_op new_op : Operation) : List SchemaChange :=
  openapi_compare_parameters path method old_op.parameters new_op.parameters
  ++ openapi_compare_request_bodies path method old_op.request_body new_op.request_body
  ++ openapi_compare_responses path method old_op.responses new_op.responses

/-- `OpenApiAnalyzer::compare_operations` (src/analyzer/openapi.rs lines
187-225): per method, a shared operation runs `compare_parameters` AND
`compare_operation_details` (which runs `compare_parameters` again with the
same arguments — the source calls it twice); a dropped method emits a
`Removal`, a new one an `Addition`. -/
def openapi_compare_operations (path : String) (old_item new_item : PathItem) :
    List SchemaChange :=
  (methodNames.map fun method =>
    match get_operation old_item method, get_operation new_item method with
    | some old_op, some new_op =>
        openapi_compare_parameters path method old_op.parameters new_op.parameters
        ++ openapi_compare_operation_details path method old_op new_op
    | some _, none =>
        [{ change_type := .removal
           location := "/paths" ++ path ++ "/" ++ method
           description := "HTTP method '" ++ method ++ "' was removed from '" ++ path ++ "'"
           metadata := [] }]
    | none, some _ =>
        [{ change_type := .addition
           location := "/paths" ++ path ++ "/" ++ method
           description := "HTTP method '" ++ method ++ "' was added to '" ++ path ++ "'"
           metadata := [] }]
    | none, none => []).flatten

/-- The change detection inlined in `OpenApiAnalyzer::analyze_compatibility`
(src/analyzer/openapi.rs lines 37-73): only paths are compared; an old path
entry is examined only when it is an inline item, a removed path is reported
at `paths/{path}`, a new inline path at `paths/{path}`. No components or
security schemes are compared here. -/
def openapi_analyze_changes (old_spec new_spec : OpenAPI) : List SchemaChange :=
  ((old_spec.paths.map fun pe =>
    match pe.2 with
    | .item old_item =>
      match alookup pe.1 new_spec.paths with
      | some (.item new_item) => openapi_compare_operations pe.1 old_item new_item
      | some (.reference _) => []
      | none =>
          [{ change_type := .removal
             location := "paths/" ++ pe.1
             description := "Path '" ++ pe.1 ++ "' was removed"
             metadata := [("path", pe.1)] }]
    | .reference _ => []).flatten)
  ++ ((new_spec.paths.map fun pe =>
    match pe.2 with
    | .item _ =>
        if acontains pe.1 old_spec.paths then []
        else
          [{ change_type := .addition
             location := "paths/" ++ pe.1
             description := "New path '" ++ pe.1 ++ "' was added"
             metadata := [("path", pe.1)] }]
    | .reference _ => []).flatten)

/-- The per-change deduction of
`OpenApiAnalyzer::calculate_compatibility_score` (src/analyzer/openapi.rs
lines 256-276): a `Modification` whose description contains
"optional to required" deducts 25 instead of 10. -/
def openapiDeduction (c : SchemaChange) : Int :=
  match c.change_type with
  | .addition => 5
  | .removal => 20
  | .modification =>
      if strHasSub c.description "optional to required" then 25 else 10
  | .rename => 8

/-- `OpenApiAnalyzer::calculate_compatibility_score`: `i32` arithmetic,
`100.saturating_sub(deductions)` (plain subtraction here: the `i32`
saturation bound is unreachable, and there is no floor at zero). -/
def openapi_calculate_compatibility_score (changes : List SchemaChange) : Int :=
  100 - changes.foldl (fun d c => d + openapiDeduction c) 0

/-- Rust `as u8` on an `i32`: wrap modulo 256. -/
def u8Wrap (i : Int) : Nat := (i % 256).toNat

/-- `OpenApiAnalyzer::validate_change` (src/analyzer/openapi.rs lines
592-614). -/
def openapi_validate_change (change : SchemaChange) : Option ValidationError :=
  match change.change_type with
  | .removal =>
      some { message := "Breaking change: " ++ change.description
             path := change.location
             code := "API001" }
  | .modification =>
      if (strHasSub change.location "parameters" && strHasSub change.description "required")
          || (strHasSub change.location "schema" && strHasSub change.description "type") then
        some { message := "Breaking change: " ++ change.description
               path := change.location
               code := "API002" }
      else none
  | _ => none

/-- `OpenApiAnalyzer::build_validation_context` (src/analyzer/openapi.rs
lines 299-324): per-type counts plus the total. -/
def openapi_build_validation_context (changes : List SchemaChange) :
    List (String × String) :=
  [("additions", toString (changes.countP fun c => c.change_type = .addition)),
   ("removals", toString (changes.countP fun c => c.change_type = .removal)),
   ("modifications", toString (changes.countP fun c => c.change_type = .modification)),
   ("renames", toString (changes.countP fun c => c.change_type = .rename)),
   ("total_changes", toString changes.length)]

/-- `OpenApiAnalyzer::validate_changes` (src/analyzer/openapi.rs lines
123-134); the source always returns `Ok`. -/
def openapi_validate_changes (changes : List SchemaChange) : ValidationResult :=
  let errors := changes.filterMap openapi_validate_change
  { is_valid := errors.isEmpty
    errors := errors
    context := openapi_build_validation_context changes }

/-- The code-to-severity mapping `OpenApiAnalyzer::analyze_compatibility`
applies when turning validation errors into report issues
(src/analyzer/openapi.rs lines 87-95): `API001` is an `Error`, `API002` a
`Warning`, anything else `Info`. -/
def openapiIssueSeverityOfCode (code : String) : IssueSeverity :=
  if code == "API001" then .error
  else if code == "API002" then .warning
  else .info

/-- The issue a validation error becomes in the OpenAPI report. -/
def openapiIssueOfError (err : ValidationError) : CompatibilityIssue :=
  { severity := openapiIssueSeverityOfCode err.code
    description := err.message
    location := err.path }

/-- `OpenApiAnalyzer::analyze_compatibility` (src/analyzer/openapi.rs lines
28-97) over the two `serde_yaml` parse results: a parse failure propagates
as `ParseError`; the `i32` score is stored into the report's `u8` via
`as u8` (wrapping), while `is_compatible` is computed on the `i32` value. -/
def openapi_analyze_compatibility
    (old_parse new_parse : Except SchemaDiffError OpenAPI) :
    Except SchemaDiffError CompatibilityReport :=
  match old_parse, new_parse with
  | .error e, _ => .error e
  | .ok _, .error e => .error e
  | .ok old_spec, .ok new_spec =>
      let changes := openapi_analyze_changes old_spec new_spec
      let score := openapi_calculate_compatibility_score changes
      let vr := openapi_validate_changes changes
      .ok { changes := changes
            compatibility_score := u8Wrap score
            is_compatible := decide (80 ≤ score)
            issues := vr.errors.map openapiIssueOfError
            metadata := [("new_version", new_spec.info_version),
              ("old_version", old_spec.info_version)] }

/-- `OpenApiAnalyzer::compare_path_items` (src/analyzer/openapi.rs lines
575-590): only two inline items are compared; any reference is skipped. -/
def openapi_compare_path_items (path : String)
    (old_item new_item : RefOr PathItem) : List SchemaChange :=
  match old_item, new_item with
  | .item o, .item n => openapi_compare_operations path o n
  | _, _ => []

/-- `OpenApiAnalyzer::compare_paths` (src/analyzer/openapi.rs lines 157-184):
unlike the detection inside `analyze_compatibility`, removals are emitted at
`/paths/{path}` with description "Removed path: ..." and without the
inline-item guard on the old entry. -/
def openapi_compare_paths (old new : OpenAPI) : List SchemaChange :=
  ((old.paths.map fun pe =>
    match alookup pe.1 new.paths with
    | some new_item => openapi_compare_path_items pe.1 pe.2 new_item
    | none =>
        [{ change_type := .removal
           location := "/paths/" ++ pe.1
           description := "Removed path: " ++ pe.1
           metadata := [] }]).flatten)
  ++ ((new.paths.filter fun pe => ! acontains pe.1 old.paths).map fun pe =>
      { change_type := .addition
        location := "/paths/" ++ pe.1
        description := "Added path: " ++ pe.1
        metadata := [] })

/-- `OpenApiAnalyzer::compare_components` (src/analyzer/openapi.rs lines
327-370): runs only when both documents carry a components section; named
schemas are compared flat (any difference is one `Modification`). -/
def openapi_compare_components (old new : OpenAPI) : List SchemaChange :=
  match old.components, new.components with
  | some oc, some nc =>
      ((oc.schemas.map fun se =>
        match alookup se.1 nc.schemas with
        | some ns =>
            if se.2 != ns then
              [{ change_type := .modification
                 location := "/components/schemas/" ++ se.1
                 description := "Schema '" ++ se.1 ++ "' was modified"
                 metadata := [] }]
            else []
        | none =>
            [{ change_type := .removal
               location := "/components/schemas/" ++ se.1
               description := "Schema '" ++ se.1 ++ "' was removed"
               metadata := [] }]).flatten)
      ++ ((nc.schemas.filter fun se => ! acontains se.1 oc.schemas).map fun se =>
          { change_type := .addition
            location := "/components/schemas/" ++ se.1
            description := "Schema '" ++ se.1 ++ "' was added"
            metadata := [] })
  | _, _ => []

/-- `OpenApiAnalyzer::compare_security` (src/analyzer/openapi.rs lines
373-404): modified or removed named security schemes; there is no addition
scan in the source. -/
def openapi_compare_security (old new : OpenAPI) : List SchemaChange :=
  match old.components, new.components with
  | some oc, some nc =>
      (oc.security_schemes.map fun se =>
        match alookup se.1 nc.security_schemes with
        | some ns =>
            if se.2 != ns then
              [{ change_type := .modification
                 location := "/components/securitySchemes/" ++ se.1
                 description := "Security scheme '" ++ se.1 ++ "' was modified"
                 metadata := [] }]
            else []
        | none =>
            [{ change_type := .removal
               location := "/components/securitySchemes/" ++ se.1
               description := "Security scheme '" ++ se.1 ++ "' was removed"
               metadata := [] }]).flatten
  | _, _ => []

/-- `OpenApiAnalyzer::compare_apis` (src/analyzer/openapi.rs lines 145-154):
paths, then components, then security schemes. -/
def openapi_compare_apis (old new : OpenAPI) : List SchemaChange :=
  openapi_compare_paths old new
  ++ openapi_compare_components old new
  ++ openapi_compare_security old new

/-- `OpenApiAnalyzer::generate_migration_path` (src/analyzer/openapi.rs lines
109-121) over the two `serde_json` parse results (`parse_openapi`). -/
def openapi_generate_migration_path (old_version new_version : String)
    (old_parse new_parse : Except SchemaDiffError OpenAPI) :
    Except SchemaDiffError MigrationPlan :=
  match old_parse, new_parse with
  | .error e, _ => .error e
  | .ok _, .error e => .error e
  | .ok old_api, .ok new_api =>
      .ok (MigrationPlan.new old_version new_version
        (openapi_compare_apis old_api new_api))

/-! ## Helper lemmas about list maxima (for the migration planner). -/

/-- `max?.getD 0` distributes over `cons` for naturals. -/
theorem maxD_cons (x : Nat) (xs : List Nat) :
    ((x :: xs).max?).getD 0 = max x ((xs.max?).getD 0) := by
  rw [List.max?_cons]
  cases h : xs.max? with
  | none => simp
  | some m => simp

/-- Every member is bounded by `max?.getD 0`. -/
theorem le_maxD {x : Nat} : ∀ {l : List Nat}, x ∈ l → x ≤ (l.max?).getD 0 := by
  intro l
  induction l with
  | nil => intro h; cases h
  | cons y ys ih =>
    intro h
    rw [maxD_cons]
    rcases List.mem_cons.mp h with rfl | hmem
    · exact Nat.le_max_left _ _
    · exact le_trans (ih hmem) (Nat.le_max_right _ _)

/-- On a nonempty list, `max?.getD 0` is attained by a member. -/
theorem maxD_mem : ∀ {l : List Nat}, l ≠ [] → (l.max?).getD 0 ∈ l := by
  intro l
  induction l with
  | nil => intro h; exact absurd rfl h
  | cons y ys ih =>
    intro _
    rw [maxD_cons]
    cases ys with
    | nil => simp
    | cons z zs =>
      rcases Nat.le_total y (((z :: zs).max?).getD 0) with hle | hle
      · rw [Nat.max_eq_right hle]
        exact List.mem_cons_of_mem _ (ih (by simp))
      · rw [Nat.max_eq_left hle]
        exact List.mem_cons_self _ _

/-- `max?.getD 0` respects a uniform upper bound. -/
theorem maxD_le {b : Nat} : ∀ {l : List Nat}, (∀ x ∈ l, x ≤ b) →
    (l.max?).getD 0 ≤ b := by
  intro l
  induction l with
  | nil => intro _; exact Nat.zero_le _
  | cons y ys ih =>
    intro h
    rw [maxD_cons]
    exact Nat.max_le.mpr ⟨h y (List.mem_cons_self _ _),
      ih fun x hx => h x (List.mem_cons_of_mem _ hx)⟩

/-- Every per-change impact weight is at most 100. -/
theorem impactWeight_le_100 (t : ChangeType) : impactWeight t ≤ 100 := by
  cases t <;> simp [impactWeight]

/-- `calculate_impact` is exactly the list maximum of the per-change weights
(the `.min(100)` clamp never engages since every weight is at most 100). -/
theorem calculate_impact_eq_maxD (changes : List SchemaChange) :
    calculate_impact changes =
      (((changes.map fun c => impactWeight c.change_type).max?).getD 0) := by
  unfold calculate_impact
  refine Nat.min_eq_left (maxD_le ?_)
  intro x hx
  rcases List.mem_map.mp hx with ⟨c, _, rfl⟩
  exact impactWeight_le_100 _

/-- C5: `MigrationPlan::new` computes `impact_score` as the maximum
single-change weight (Addition 25, Removal 100, Modification 50, Rename 30),
not a sum, with the empty sequence giving impact 0, and sets `is_breaking`
true iff some change is a `Removal` or a `Modification`; in particular one
`Addition` plus one `Removal` gives impact 100 and `is_breaking = true`. -/
theorem migration_plan_impact_max_and_breaking (s t : String)
    (changes : List SchemaChange) :
    (∀ c ∈ changes,
      impactWeight c.change_type ≤ (MigrationPlan.new s t changes).impact_score)
    ∧ (changes ≠ [] → ∃ c ∈ changes,
      impactWeight c.change_type = (MigrationPlan.new s t changes).impact_score)
    ∧ (MigrationPlan.new s t ([] : List SchemaChange)).impact_score = 0
    ∧ ((MigrationPlan.new s t changes).is_breaking = true ↔
      ∃ c ∈ changes, c.change_type = .removal ∨ c.change_type = .modification)
    ∧ (MigrationPlan.new s t
        [mkChange .addition "a" "x", mkChange .removal "r" "y"]).impact_score = 100
    ∧ (MigrationPlan.new s t
        [mkChange .addition "a" "x", mkChange .removal "r" "y"]).is_breaking = true := by
  refine ⟨?_, ?_, by rfl, ?_, by rfl, by rfl⟩
  · intro c hc
    show impactWeight c.change_type ≤ calculate_impact changes
    rw [calculate_impact_eq_maxD]
    exact le_maxD (List.mem_map.mpr ⟨c, hc, rfl⟩)
  · intro hne
    have hmem := maxD_mem (l := changes.map fun c => impactWeight c.change_type)
      (by simpa using hne)
    rcases List.mem_map.mp hmem with ⟨c, hc, heq⟩
    exact ⟨c, hc, by
      show impactWeight c.change_type = calculate_impact changes
      rw [calculate_impact_eq_maxD, heq]⟩
  · show detect_breaking_changes changes = true ↔ _
    unfold detect_breaking_changes
    rw [List.any_eq_true]
    constructor
    · rintro ⟨c, hc, hp⟩
      refine ⟨c, hc, ?_⟩
      cases h : c.change_type <;> simp [h] at hp ⊢
    · rintro ⟨c, hc, hp⟩
      refine ⟨c, hc, ?_⟩
      rcases hp with h | h <;> rw [h]

/-- Witness for C5 at a concrete two-change sequence. -/
theorem migration_plan_impact_witness :
    ∃ c ∈ [mkChange .addition "a" "x", mkChange .removal "r" "y"],
      impactWeight c.change_type =
        (MigrationPlan.new "1.0.0" "2.0.0"
          [mkChange .addition "a" "x", mkChange .removal "r" "y"]).impact_score :=
  (migration_plan_impact_max_and_breaking "1.0.0" "2.0.0"
    [mkChange .addition "a" "x", mkChange .removal "r" "y"]).2.1 (by simp)

/-! ## C1: parse-failure behavior of `SqlAnalyzer::analyze_compatibility`. -/

/-- C1: the claim (and the spec) requires `analyze_compatibility` to fail
with a `ParseError` when either schema's content cannot be parsed, never
producing a default/empty report. The SQL analyzer does the opposite: its
`compare_schemas` discards both parse results through
`if let (Ok(..), Ok(..))`, so an unparseable input yields `Ok` with an empty
change list, score 100, `is_compatible = true` — on either side failing. -/
theorem sql_parse_failure_swallowed :
    sql_analyze_compatibility
        (.error (.parseError "Failed to parse SQL: syntax error")) (.ok [])
      = .ok { changes := [], compatibility_score := 100, is_compatible := true,
              issues := [], metadata := [] }
    ∧ sql_analyze_compatibility (.ok [])
        (.error (.parseError "Failed to parse SQL: syntax error"))
      = .ok { changes := [], compatibility_score := 100, is_compatible := true,
              issues := [], metadata := [] } :=
  ⟨rfl, rfl⟩

/-! ## C3: score saturation across the four dialects.

Concrete inputs whose deduction sum exceeds 100: six removed paths
(OpenAPI, 6 x 20 = 120), six removed messages (Protobuf, 120), six removed
object keys (JSON Schema, 120), seven removed tables (SQL, 7 x 15 = 105). -/

/-- A path item with no operations. -/
def emptyPathItem : PathItem :=
  { get := none, post := none, put := none, delete := none, patch := none,
    head := none, options := none }

/-- An OpenAPI document with six inline paths. -/
def openapiSixOld : OpenAPI :=
  { info_version := "1.0.0"
    paths := [("/a", .item emptyPathItem), ("/b", .item emptyPathItem),
      ("/c", .item emptyPathItem), ("/d", .item emptyPathItem),
      ("/e", .item emptyPathItem), ("/f", .item emptyPathItem)]
    components := none }

/-- An OpenAPI document with no paths. -/
def openapiEmptyNew : OpenAPI :=
  { info_version := "2.0.0", paths := [], components := none }

/-- A protobuf descriptor with six messages. -/
def protoSixOld : FileDescriptorProto :=
  { message_type := [{ name := "M1", field := [] }, { name := "M2", field := [] },
      { name := "M3", field := [] }, { name := "M4", field := [] },
      { name := "M5", field := [] }, { name := "M6", field := [] }] }

/-- A protobuf descriptor with no messages. -/
def protoEmptyNew : FileDescriptorProto := { message_type := [] }

/-- A JSON object with six keys. -/
def jsonSixOld : Json :=
  .obj (.fcons "a" .null (.fcons "b" .null (.fcons "c" .null
    (.fcons "d" .null (.fcons "e" .null (.fcons "f" .null .fnil))))))

/-- Seven SQL tables. -/
def sqlSevenTables : List SqlStatement :=
  [.createTable "t1" [], .createTable "t2" [], .createTable "t3" [],
   .createTable "t4" [], .createTable "t5" [], .createTable "t6" [],
   .createTable "t7" []]

/-- C3: the claim requires every dialect to clamp an over-100 deduction sum
to score exactly 0, never wrapped or crashing. JSON Schema and SQL do clamp
(`u8` saturating arithmetic); OpenAPI stores the wrapped value 236 (the
`i32` score −20 cast `as u8`), and Protobuf panics (`try_into().unwrap()` on
−20, modelled `none`). -/
theorem compatibility_score_saturation_divergence :
    ((openapi_analyze_compatibility (.ok openapiSixOld) (.ok openapiEmptyNew)).toOption.map
        fun r => (r.changes.length, r.changes.foldl (fun d c => d + openapiDeduction c) 0,
          r.compatibility_score, r.is_compatible))
      = some (6, 120, 236, false)
    ∧ (proto_compare_descriptors protoSixOld protoEmptyNew "").length = 6
    ∧ proto_calculate_compatibility_score
        (proto_compare_descriptors protoSixOld protoEmptyNew "") = some (-20)
    ∧ proto_analyze_compatibility protoSixOld protoEmptyNew = none
    ∧ ((json_analyze_compatibility (.ok jsonSixOld) (.ok (.obj .fnil))).toOption.map
        fun r => (r.changes.length, r.compatibility_score, r.is_compatible))
      = some (6, 0, false)
    ∧ ((sql_analyze_compatibility (.ok sqlSevenTables) (.ok [])).toOption.map
        fun r => (r.changes.length, r.compatibility_score)) = some (7, 0) := by
  refine ⟨rfl, rfl, rfl, rfl, rfl, rfl⟩

/-! ## C2: the optional-to-required `limit` parameter scenario. -/

/-- The query parameter `limit` with the given required flag; everything
else identical. -/
def limitParam (req : Bool) : Parameter :=
  { kind := .query, name := "limit", required := req, rest := "integer" }

/-- The `GET /users` operation of the scenario. -/
def usersGetOp (req : Bool) : Operation :=
  { parameters := [.item (limitParam req)]
    request_body := none
    responses := [("200", "Success")] }

/-- The `/users` path item of the scenario. -/
def usersPathItem (req : Bool) : PathItem :=
  { get := some (usersGetOp req), post := none, put := none, delete := none,
    patch := none, head := none, options := none }

/-- The old document: `limit` is optional. -/
def apiLimitOld : OpenAPI :=
  { info_version := "1.0.0"
    paths := [("/users", .item (usersPathItem false))]
    components := none }

/-- The new document: `limit` is required; everything else identical. -/
def apiLimitNew : OpenAPI :=
  { info_version := "1.1.0"
    paths := [("/users", .item (usersPathItem true))]
    components := none }

/-- The modification the scenario produces (twice). -/
def limitModification : SchemaChange :=
  paramRequiredModification "/users" "get" "limit"

/-- The `API002` validation error the scenario produces (twice). -/
def limitValidationError : ValidationError :=
  { message := "Breaking change: Parameter 'limit' changed from optional to required"
    path := "paths//users/get/parameters/limit"
    code := "API002" }

/-- C2: the claim (and the spec's scenario) requires exactly one
`Modification` and score 75. The source emits the modification twice —
`compare_operations` calls `compare_parameters` directly and then again
through `compare_operation_details` — so the report holds two identical
modifications, score 100 − 25 − 25 = 50, and two `API002` validation
errors. `is_compatible = false` does hold. -/
theorem openapi_limit_scenario_double_report :
    openapi_analyze_compatibility (.ok apiLimitOld) (.ok apiLimitNew)
      = .ok { changes := [limitModification, limitModification]
              compatibility_score := 50
              is_compatible := false
              issues := [openapiIssueOfError limitValidationError,
                openapiIssueOfError limitValidationError]
              metadata := [("new_version", "1.1.0"), ("old_version", "1.0.0")] }
    ∧ openapi_validate_changes [limitModification, limitModification]
      = { is_valid := false
          errors := [limitValidationError, limitValidationError]
          context := [("additions", "0"), ("removals", "0"),
            ("modifications", "2"), ("renames", "0"), ("total_changes", "2")] } :=
  ⟨rfl, rfl⟩

/-! ## Substring machinery: occurrences cannot cross a separator absent from
the pattern. -/

/-- `listHasSub` decides `List.IsInfix`. -/
theorem listHasSub_infix_iff (pat : List Char) :
    ∀ s : List Char, listHasSub pat s = true ↔ pat <:+: s := by
  intro s
  induction s with
  | nil =>
    simp only [listHasSub, List.isEmpty_iff]
    exact ⟨fun h => h ▸ List.infix_rfl, fun h => List.eq_nil_of_infix_nil h⟩
  | cons c rest ih =>
    simp only [listHasSub, Bool.or_eq_true, List.infix_cons_iff, ih]
    exact or_congr List.isPrefixOf_iff_prefix Iff.rfl

/-- A prefix of `y ++ ch :: b` avoiding `ch` is a prefix of `y`. -/
theorem prefix_of_append_sep {ch : Char} :
    ∀ {p y b : List Char}, ch ∉ p → p <+: y ++ ch :: b → p <+: y := by
  intro p
  induction p with
  | nil => intro y b _ _; exact List.nil_prefix
  | cons q p' ih =>
    intro y b hch hpre
    cases y with
    | nil =>
      rw [List.nil_append] at hpre
      rcases (List.cons_prefix_cons).mp hpre with ⟨rfl, _⟩
      exact absurd (List.mem_cons_self _ _) hch
    | cons z y' =>
      rcases (List.cons_prefix_cons).mp hpre with ⟨rfl, htail⟩
      have hch' : ch ∉ p' := fun hm => hch (List.mem_cons_of_mem _ hm)
      exact (List.cons_prefix_cons).mpr ⟨rfl, ih hch' htail⟩

/-- An infix of `a ++ ch :: b` avoiding `ch` lies within `a` or within `b`. -/
theorem infix_of_append_sep {ch : Char} {p : List Char} (hch : ch ∉ p) :
    ∀ {a b : List Char}, p <:+: a ++ ch :: b → p <:+: a ∨ p <:+: b := by
  intro a
  induction a with
  | nil =>
    intro b h
    rw [List.nil_append] at h
    rcases List.infix_cons_iff.mp h with hpre | hinf
    · cases p with
      | nil => exact Or.inl List.infix_rfl
      | cons q p' =>
        rcases (List.cons_prefix_cons).mp hpre with ⟨rfl, _⟩
        exact absurd (List.mem_cons_self _ _) hch
    · exact Or.inr hinf
  | cons x a' ih =>
    intro b h
    rw [List.cons_append] at h
    rcases List.infix_cons_iff.mp h with hpre | hinf
    · exact Or.inl ((prefix_of_append_sep hch hpre).isInfix)
    · rcases ih hinf with hleft | hright
      · exact Or.inl (hleft.trans (List.suffix_cons x a').isInfix)
      · exact Or.inr hright

/-- Rust `contains` on a location built as `table ++ "/" ++ column`: when the
pattern has no slash, an occurrence lies in the table part or in the column
part. -/
theorem strHasSub_slash_split {t c pat : String}
    (hch : ('/' : Char) ∉ pat.toList)
    (h : strHasSub (t ++ "/" ++ c) pat = true) :
    strHasSub t pat = true ∨ strHasSub c pat = true := by
  unfold strHasSub at h ⊢
  rw [listHasSub_infix_iff] at h
  rw [listHasSub_infix_iff, listHasSub_infix_iff]
  have hdata : (t ++ "/" ++ c).toList = t.toList ++ '/' :: c.toList := by
    show (t ++ "/" ++ c).data = t.data ++ '/' :: c.data
    rw [String.data_append, String.data_append, List.append_assoc]
    rfl
  rw [hdata] at h
  exact infix_of_append_sep hch h

/-! ## C10: SQL change validation rules. -/

/-- C10: SQL validation: every `Removal` yields an Error-severity issue
carried to code `SQL001`; a `Modification` yields a Warning-severity issue
(code `SQL002`) exactly when its location contains "type"; every other
change yields no issue — including a column data-type `Modification` whose
table and column names avoid the substring "type", since its location is
`table/column`. -/
theorem sql_validation_rules (c : SchemaChange) :
    (c.change_type = .removal →
      sql_validate_change c
        = some { severity := .error
                 description := "Breaking change: " ++ c.description
                 location := c.location }
      ∧ ∀ i, sql_validate_change c = some i → sqlSeverityCode i.severity = "SQL001")
    ∧ (c.change_type = .modification →
      ((∃ i, sql_validate_change c = some i ∧ i.severity = .warning
          ∧ sqlSeverityCode i.severity = "SQL002")
        ↔ strHasSub c.location "type" = true))
    ∧ (c.change_type = .addition ∨ c.change_type = .rename →
      sql_validate_change c = none)
    ∧ (∀ tn cn oldT newT, strHasSub tn "type" = false → strHasSub cn "type" = false →
      sql_validate_change (sqlTypeModification tn
        { name := cn, data_type := oldT, options := [] }
        { name := cn, data_type := newT, options := [] }) = none) := by
  refine ⟨?_, ?_, ?_, ?_⟩
  · intro h
    unfold sql_validate_change
    rw [h]
    exact ⟨rfl, fun i hi => by
      rcases Option.some.inj hi with rfl
      rfl⟩
  · intro h
    unfold sql_validate_change
    rw [h]
    constructor
    · rintro ⟨i, hi, _, _⟩
      by_cases hc : strHasSub c.location "type" = true
      · exact hc
      · rw [Bool.not_eq_true] at hc
        rw [hc] at hi
        simp at hi
    · intro hc
      rw [hc]
      exact ⟨_, rfl, rfl, rfl⟩
  · rintro (h | h) <;> (unfold sql_validate_change; rw [h])
  · intro tn cn oldT newT htn hcn
    unfold sql_validate_change sqlTypeModification
    simp only
    have : strHasSub (tn ++ "/" ++ cn) "type" = false := by
      rw [Bool.eq_false_iff]
      intro hh
      rcases strHasSub_slash_split (by decide) hh with h1 | h1
      · rw [htn] at h1; cases h1
      · rw [hcn] at h1; cases h1
    rw [this]
    simp

/-- Witness for C10 at a concrete removal and a concrete data-type
modification whose names avoid "type". -/
theorem sql_validation_rules_witness :
    sql_validate_change (mkChange .removal "users/name" "Column 'name' was removed")
      = some { severity := .error
               description := "Breaking change: Column 'name' was removed"
               location := "users/name" }
    ∧ sql_validate_change (sqlTypeModification "users"
        { name := "age", data_type := "Int", options := [] }
        { name := "age", data_type := "Text", options := [] }) = none :=
  ⟨((sql_validation_rules (mkChange .removal "users/name" "Column 'name' was removed")).1 rfl).1,
   (sql_validation_rules (mkChange .removal "x" "y")).2.2.2 "users" "age" "Int" "Text"
     (by decide) (by decide)⟩

/-! ## C7: OpenAPI change validation classification. -/

/-- C7 counterexample: the claim calls a qualifying `Modification` a
"severity-Error issue with code API002", but the report-issue mapping sends
`API002` to `Warning` (`analyze_compatibility`, src/analyzer/openapi.rs line
90); only `API001` becomes an `Error`. Evaluated at the optional-to-required
parameter modification. -/
theorem openapi_api002_issue_is_warning :
    (openapi_validate_changes [limitModification]).errors = [limitValidationError]
    ∧ (openapiIssueOfError limitValidationError).severity = .warning
    ∧ IssueSeverity.warning ≠ IssueSeverity.error :=
  ⟨rfl, rfl, by decide⟩

/-- C7 amended: every `Removal` yields a validation error with code `API001`
whose report issue has severity `Error`; a `Modification` yields a validation
error — with code `API002` and report severity `Warning`, not `Error` —
exactly when its location contains "parameters" and its description contains
"required", or its location contains "schema" and its description contains
"type"; every other modification and every `Addition` or `Rename` produces
no validation error. -/
theorem openapi_validation_classification (c : SchemaChange) :
    (c.change_type = .removal →
      openapi_validate_change c
        = some { message := "Breaking change: " ++ c.description
                 path := c.location
                 code := "API001" }
      ∧ ∀ e, openapi_validate_change c = some e →
          (openapiIssueOfError e).severity = .error)
    ∧ (c.change_type = .modification →
      ((∃ e, openapi_validate_change c = some e ∧ e.code = "API002"
          ∧ (openapiIssueOfError e).severity = .warning)
        ↔ ((strHasSub c.location "parameters" && strHasSub c.description "required")
            || (strHasSub c.location "schema" && strHasSub c.description "type")) = true))
    ∧ (c.change_type = .addition ∨ c.change_type = .rename →
      openapi_validate_change c = none) := by
  refine ⟨?_, ?_, ?_⟩
  · intro h
    unfold openapi_validate_change
    rw [h]
    exact ⟨rfl, fun e he => by
      rcases Option.some.inj he with rfl
      rfl⟩
  · intro h
    unfold openapi_validate_change
    rw [h]
    constructor
    · rintro ⟨e, he, _, _⟩
      by_cases hcond : ((strHasSub c.location "parameters" && strHasSub c.description "required")
          || (strHasSub c.location "schema" && strHasSub c.description "type")) = true
      · exact hcond
      · rw [Bool.not_eq_true] at hcond
        rw [hcond] at he
        simp at he
    · intro hcond
      refine ⟨{ message := "Breaking change: " ++ c.description
                path := c.location
                code := "API002" }, ?_, rfl, rfl⟩
      rw [if_pos hcond]
  · rintro (h | h) <;> (unfold openapi_validate_change; rw [h])

/-- Witness for the amended C7 at a concrete removal. -/
theorem openapi_validation_classification_witness :
    openapi_validate_change (mkChange .removal "paths//users" "Path '/users' was removed")
      = some { message := "Breaking change: Path '/users' was removed"
               path := "paths//users"
               code := "API001" } :=
  ((openapi_validation_classification
    (mkChange .removal "paths//users" "Path '/users' was removed")).1 rfl).1

/-! ## C8: the Protobuf `Rename` path is unreachable and fatal. -/

/-- No change `proto_compare_fields` produces is a `Rename`. -/
theorem proto_compare_fields_no_rename (path : String) (om nm : DescriptorProto) :
    ∀ d ∈ proto_compare_fields path om nm, d.change_type ≠ ChangeType.rename := by
  intro d hd
  unfold proto_compare_fields at hd
  rcases List.mem_append.mp hd with hd | hd
  · rcases List.mem_flatten.mp hd with ⟨l, hl, hdl⟩
    rcases List.mem_map.mp hl with ⟨of, _, rfl⟩
    split at hdl
    · split at hdl
      · rcases List.mem_singleton.mp hdl with rfl
        simp
      · cases hdl
    · rcases List.mem_singleton.mp hdl with rfl
      simp
  · rcases List.mem_map.mp hd with ⟨nf, _, rfl⟩
    simp

/-- No change `proto_compare_descriptors` produces is a `Rename`. -/
theorem proto_compare_descriptors_no_rename (old new : FileDescriptorProto)
    (path : String) :
    ∀ d ∈ proto_compare_descriptors old new path,
      d.change_type ≠ ChangeType.rename := by
  intro d hd
  unfold proto_compare_descriptors at hd
  rcases List.mem_append.mp hd with hd | hd
  · rcases List.mem_flatten.mp hd with ⟨l, hl, hdl⟩
    rcases List.mem_map.mp hl with ⟨om, _, rfl⟩
    split at hdl
    · exact proto_compare_fields_no_rename path om _ d hdl
    · rcases List.mem_singleton.mp hdl with rfl
      simp
  · rcases List.mem_map.mp hd with ⟨nm, _, rfl⟩
    simp

/-- A `Rename` anywhere in the sequence makes the deduction loop panic. -/
theorem proto_deductions_none_of_rename {changes : List SchemaChange}
    {c : SchemaChange} (hc : c ∈ changes) (hr : c.change_type = .rename) :
    proto_deductions changes = none := by
  induction changes with
  | nil => cases hc
  | cons hd tl ih =>
    rcases List.mem_cons.mp hc with rfl | hmem
    · simp [proto_deductions, hr]
    · have htl := ih hmem
      cases h : hd.change_type <;> simp [proto_deductions, h, htl]

/-- A `Rename` anywhere in the sequence makes the validation loop panic. -/
theorem proto_errors_none_of_rename {changes : List SchemaChange}
    {c : SchemaChange} (hc : c ∈ changes) (hr : c.change_type = .rename) :
    proto_errors changes = none := by
  induction changes with
  | nil => cases hc
  | cons hd tl ih =>
    rcases List.mem_cons.mp hc with rfl | hmem
    · simp [proto_errors, proto_validate_change, hr]
    · have htl := ih hmem
      cases h : hd.change_type <;>
        simp [proto_errors, proto_validate_change, h, htl]

/-- C8: no comparison of two protobuf descriptor sets ever emits a `Rename`,
and a change sequence containing a `Rename` makes both the score computation
and `validate_changes` hit `todo!()` — a panic (`none`), never a silently
returned result. -/
theorem proto_rename_unreachable_and_fatal (old new : FileDescriptorProto)
    (path : String) (changes : List SchemaChange) (c : SchemaChange)
    (hc : c ∈ changes) (hr : c.change_type = .rename) :
    (∀ d ∈ proto_compare_descriptors old new path,
      d.change_type ≠ ChangeType.rename)
    ∧ proto_calculate_compatibility_score changes = none
    ∧ proto_validate_changes changes = none := by
  refine ⟨proto_compare_descriptors_no_rename old new path, ?_, ?_⟩
  · unfold proto_calculate_compatibility_score
    rw [proto_deductions_none_of_rename hc hr]
    rfl
  · unfold proto_validate_changes
    rw [proto_errors_none_of_rename hc hr]
    rfl

/-- Witness for C8 at a concrete one-rename sequence. -/
theorem proto_rename_fatal_witness :
    proto_calculate_compatibility_score [mkChange .rename "l" "d"] = none
    ∧ proto_validate_changes [mkChange .rename "l" "d"] = none :=
  ⟨(proto_rename_unreachable_and_fatal { message_type := [] } { message_type := [] }
      "" [mkChange .rename "l" "d"] (mkChange .rename "l" "d")
      (List.mem_singleton.mpr rfl) rfl).2.1,
   (proto_rename_unreachable_and_fatal { message_type := [] } { message_type := [] }
      "" [mkChange .rename "l" "d"] (mkChange .rename "l" "d")
      (List.mem_singleton.mpr rfl) rfl).2.2⟩

/-! ## C9: SQL constraints compared as a set by kind. -/

/-- The kind of a column option, for stating the matching rule. -/
inductive ConstraintKind where
  | notNullKind
  | defaultKind
  | uniqueKind
  | otherKind
deriving DecidableEq, Repr

/-- Kind classification of a column option. -/
def ColumnOption.kind : ColumnOption → ConstraintKind
  | .notNull => .notNullKind
  | .defaultVal _ => .defaultKind
  | .unique _ _ => .uniqueKind
  | .otherOpt _ => .otherKind

/-- The primary-key flag, present only on uniqueness constraints. -/
def ColumnOption.uniqueFlag : ColumnOption → Option Bool
  | .unique p _ => some p
  | _ => none

/-- Whether the option is of one of the three kinds the analyzer's match
arms name. -/
def ColumnOption.isCore : ColumnOption → Bool
  | .otherOpt _ => false
  | _ => true

/-- A string ends with a suffix it was literally built with. -/
theorem strEndsWith_append (s pat : String) :
    strEndsWith (s ++ pat) pat = true := by
  unfold strEndsWith
  rw [List.isSuffixOf_iff_suffix]
  show pat.data <:+ (s ++ pat).data
  rw [String.data_append]
  exact List.suffix_append _ _

/-- C9: column constraints are compared as a set by constraint kind: for the
kinds the analyzer names (not-null, default presence, uniqueness), two
constraints match iff they have the same kind and, for uniqueness, equal
primary-key flags; a default whose value changed (Default present on both
sides) is never reported in either direction; and a constraint with no match
on the other side is reported as a `Removal`/`Addition` at a location ending
in `/constraints` — and those are the only change types this comparison
emits. -/
theorem sql_constraints_compared_by_kind (tn cn : String)
    (old_options new_options : List ColumnOption)
    (a b : ColumnOption) (ha : a.isCore = true) (hb : b.isCore = true) :
    (sqlConstraintMatches a b = true ↔
      (a.kind = b.kind ∧ a.uniqueFlag = b.uniqueFlag))
    ∧ (∀ v w, ColumnOption.defaultVal w ∈ new_options →
        ColumnOption.defaultVal v ∉
          (old_options.filter fun o => ! new_options.any fun n => sqlConstraintMatches o n))
    ∧ (∀ v w, ColumnOption.defaultVal w ∈ old_options →
        ColumnOption.defaultVal v ∉
          (new_options.filter fun n => ! old_options.any fun o => sqlConstraintMatches o n))
    ∧ (∀ o ∈ old_options, (new_options.any fun n => sqlConstraintMatches o n) = false →
        sqlConstraintRemoval tn cn o ∈
          compare_column_constraints tn cn old_options new_options)
    ∧ (∀ n ∈ new_options, (old_options.any fun o => sqlConstraintMatches o n) = false →
        sqlConstraintAddition tn cn n ∈
          compare_column_constraints tn cn old_options new_options)
    ∧ (∀ ch ∈ compare_column_constraints tn cn old_options new_options,
        strEndsWith ch.location "/constraints" = true
        ∧ (ch.change_type = .removal ∨ ch.change_type = .addition)) := by
  refine ⟨?_, ?_, ?_, ?_, ?_, ?_⟩
  · cases a <;> cases b <;>
      simp_all [sqlConstraintMatches, ColumnOption.kind, ColumnOption.uniqueFlag,
        ColumnOption.isCore]
  · intro v w hw hmem
    rcases List.mem_filter.mp hmem with ⟨_, hfl⟩
    have hany : (new_options.any fun n =>
        sqlConstraintMatches (ColumnOption.defaultVal v) n) = true :=
      List.any_eq_true.mpr ⟨ColumnOption.defaultVal w, hw, rfl⟩
    rw [hany] at hfl
    cases hfl
  · intro v w hw hmem
    rcases List.mem_filter.mp hmem with ⟨_, hfl⟩
    have hany : (old_options.any fun o =>
        sqlConstraintMatches o (ColumnOption.defaultVal v)) = true :=
      List.any_eq_true.mpr ⟨ColumnOption.defaultVal w, hw, rfl⟩
    rw [hany] at hfl
    cases hfl
  · intro o ho hno
    unfold compare_column_constraints
    refine List.mem_append_left _ (List.mem_map.mpr ⟨o, List.mem_filter.mpr ⟨ho, ?_⟩, rfl⟩)
    rw [hno]
    rfl
  · intro n hn hno
    unfold compare_column_constraints
    refine List.mem_append_right _ (List.mem_map.mpr ⟨n, List.mem_filter.mpr ⟨hn, ?_⟩, rfl⟩)
    rw [hno]
    rfl
  · intro ch hch
    unfold compare_column_constraints at hch
    rcases List.mem_append.mp hch with hch | hch <;>
      rcases List.mem_map.mp hch with ⟨o, _, rfl⟩
    · exact ⟨strEndsWith_append (tn ++ "/" ++ cn) "/constraints", Or.inl rfl⟩
    · exact ⟨strEndsWith_append (tn ++ "/" ++ cn) "/constraints", Or.inr rfl⟩

/-- Witness for C9 at concrete options: two defaults with different values
on the two sides produce no constraint change at all. -/
theorem sql_constraints_witness :
    ColumnOption.defaultVal "0" ∉
      (([ColumnOption.defaultVal "0"] : List ColumnOption).filter fun o =>
        ! ([ColumnOption.defaultVal "1"] : List ColumnOption).any fun n =>
          sqlConstraintMatches o n) :=
  (sql_constraints_compared_by_kind "t" "c"
    [ColumnOption.defaultVal "0"] [ColumnOption.defaultVal "1"]
    ColumnOption.notNull ColumnOption.notNull rfl rfl).2.1 "0" "1"
    (List.mem_singleton.mpr rfl)

/-! ## C4: change detection of `generate_migration_path` vs
`analyze_compatibility` (OpenAPI). -/

/-- A pair's key is contained in any list holding the pair. -/
theorem acontains_of_mem {α : Type} {pe : String × α} {l : List (String × α)}
    (h : pe ∈ l) : acontains pe.1 l = true :=
  List.any_eq_true.mpr ⟨pe, h, by simp⟩

/-- A contained key has a lookup value. -/
theorem alookup_of_acontains {α : Type} {k : String} :
    ∀ {l : List (String × α)}, acontains k l = true → ∃ v, alookup k l = some v := by
  intro l
  induction l with
  | nil => intro h; cases h
  | cons p t ih =>
    obtain ⟨k1, v1⟩ := p
    intro h
    by_cases hk : (k1 == k) = true
    · exact ⟨v1, by simp [alookup, hk]⟩
    · have ht : acontains k t = true := by
        unfold acontains at h
        rw [List.any_cons] at h
        simp only [Bool.or_eq_true] at h
        rcases h with h1 | h1
        · exact absurd h1 hk
        · exact h1
      rcases ih ht with ⟨v, hv⟩
      exact ⟨v, by simp [alookup, hk, hv]⟩

/-- Documents that differ only in a component schema: `analyze_compatibility`
sees nothing (it compares only paths), `generate_migration_path` sees a
`Modification`. -/
def apiCompOld : OpenAPI :=
  { info_version := "1.0.0", paths := []
    components := some { schemas := [("User", "a")], security_schemes := [] } }

/-- The new document of the components counterexample. -/
def apiCompNew : OpenAPI :=
  { info_version := "1.1.0", paths := []
    components := some { schemas := [("User", "b")], security_schemes := [] } }

/-- C4 counterexample: the two operations do not detect the same change
sequence — on documents differing only in a component schema the analysis
detects nothing while the migration path detects one `Modification` (they
also differ on removed-path locations, `paths/{p}` vs `/paths/{p}`, and
parse different syntaxes, YAML vs JSON). -/
theorem openapi_migration_detection_diverges :
    openapi_analyze_changes apiCompOld apiCompNew = []
    ∧ openapi_compare_apis apiCompOld apiCompNew
        = [{ change_type := .modification
             location := "/components/schemas/User"
             description := "Schema 'User' was modified"
             metadata := [] }]
    ∧ openapi_compare_apis apiCompOld apiCompNew
        ≠ openapi_analyze_changes apiCompOld apiCompNew :=
  ⟨rfl, rfl, by decide⟩

/-- C4 amended: the two detections agree (same changes, same order) on
documents with identical path-key sets when at least one document lacks a
components section: both then reduce to the shared `compare_operations`
walk over the common paths. -/
theorem openapi_migration_matches_analyze (old new : OpenAPI)
    (hkeys : ∀ p, acontains p old.paths = acontains p new.paths)
    (hcomp : old.components = none ∨ new.components = none) :
    openapi_compare_apis old new = openapi_analyze_changes old new := by
  have hcomps : openapi_compare_components old new = [] := by
    unfold openapi_compare_components
    rcases hcomp with h | h
    · rw [h]
    · rw [h]; cases old.components <;> rfl
  have hsec : openapi_compare_security old new = [] := by
    unfold openapi_compare_security
    rcases hcomp with h | h
    · rw [h]
    · rw [h]; cases old.components <;> rfl
  unfold openapi_compare_apis
  rw [hcomps, hsec, List.append_nil, List.append_nil]
  unfold openapi_compare_paths openapi_analyze_changes
  have haddm : (new.paths.filter fun pe => ! acontains pe.1 old.paths) = [] := by
    rw [List.filter_eq_nil_iff]
    intro pe hpe
    rw [hkeys pe.1, acontains_of_mem hpe]
    decide
  have hadda : ((new.paths.map fun pe =>
      match pe.2 with
      | .item _ =>
          if acontains pe.1 old.paths then []
          else
            [{ change_type := .addition
               location := "paths/" ++ pe.1
               description := "New path '" ++ pe.1 ++ "' was added"
               metadata := [("path", pe.1)] }]
      | .reference _ => ([] : List SchemaChange)).flatten) = [] := by
    rw [List.flatten_eq_nil_iff]
    intro x hx
    rcases List.mem_map.mp hx with ⟨pe, hpe, rfl⟩
    have hc : acontains pe.1 old.paths = true := by
      rw [hkeys pe.1]; exact acontains_of_mem hpe
    cases h2 : pe.2 with
    | item it => rw [hc]; rfl
    | reference r => rfl
  rw [haddm, hadda, List.map_nil, List.append_nil, List.append_nil]
  congr 1
  apply List.map_congr_left
  intro pe hpe
  have hc : acontains pe.1 new.paths = true := by
    rw [← hkeys pe.1]; exact acontains_of_mem hpe
  rcases alookup_of_acontains hc with ⟨ni, hni⟩
  rw [hni]
  cases h2 : pe.2 with
  | item oit =>
    cases ni with
    | item nit => rfl
    | reference r => rfl
  | reference r =>
    cases ni with
    | item nit => rfl
    | reference r2 => rfl

/-- Witness for the amended C4 at the concrete `limit` scenario documents
(same single path, no components). -/
theorem openapi_migration_matches_analyze_witness :
    openapi_compare_apis apiLimitOld apiLimitNew
      = openapi_analyze_changes apiLimitOld apiLimitNew :=
  openapi_migration_matches_analyze apiLimitOld apiLimitNew
    (fun _ => rfl) (Or.inl rfl)

/-! ## C6: identity comparison.

The identity property holds only for parsed documents whose by-name
collections carry no duplicate names (map-backed parsers guarantee this for
JSON objects and OpenAPI `IndexMap`s; SQL columns/tables and protobuf
messages/fields are plain vectors, so the hypothesis is stated explicitly),
and — the counterexample below — only for SQL columns whose constraints all
belong to the three kinds the matcher names. -/

/-- Executable key-uniqueness of a name list. -/
def nodupKeys : List String → Bool
  | [] => true
  | k :: rest => (! rest.any fun x => x == k) && nodupKeys rest

/-- An association list with unique keys looks every one of its own pairs up
to that pair's value. -/
theorem alookup_self {α : Type} :
    ∀ {l : List (String × α)}, nodupKeys (l.map (·.1)) = true →
    ∀ {pe : String × α}, pe ∈ l → alookup pe.1 l = some pe.2 := by
  intro l
  induction l with
  | nil => intro _ _ h; cases h
  | cons q t ih =>
    obtain ⟨k0, v0⟩ := q
    intro hnd pe hmem
    have hnd' := hnd
    rw [List.map_cons] at hnd'
    unfold nodupKeys at hnd'
    obtain ⟨hnotin, hrest⟩ := Bool.and_eq_true _ _ ▸ hnd'
    rcases List.mem_cons.mp hmem with rfl | hmem'
    · simp [alookup]
    · have hne : (k0 == pe.1) = false := by
        rw [Bool.eq_false_iff]
        intro hk
        have hin : pe.1 ∈ t.map (·.1) := List.mem_map.mpr ⟨pe, hmem', rfl⟩
        rw [← eq_of_beq hk] at hin
        have : (t.map (·.1)).any (fun x => x == k0) = true :=
          List.any_eq_true.mpr ⟨k0, hin, by simp⟩
        rw [this] at hnotin
        cases hnotin
      unfold alookup
      rw [hne]
      exact ih hrest hmem'

/-- A list keyed by an extraction function with unique keys finds every one
of its own members by that member's key. -/
theorem find_self_by_key {α : Type} (key : α → String) :
    ∀ {l : List α}, nodupKeys (l.map key) = true →
    ∀ {x : α}, x ∈ l → l.find? (fun y => key y == key x) = some x := by
  intro l
  induction l with
  | nil => intro _ _ h; cases h
  | cons y t ih =>
    intro hnd x hmem
    have hnd' := hnd
    rw [List.map_cons] at hnd'
    unfold nodupKeys at hnd'
    obtain ⟨hnotin, hrest⟩ := Bool.and_eq_true _ _ ▸ hnd'
    rcases List.mem_cons.mp hmem with rfl | hmem'
    · exact List.find?_cons_of_pos _ (by simp)
    · have hne : (key y == key x) = false := by
        rw [Bool.eq_false_iff]
        intro hk
        have hin : key x ∈ t.map key := List.mem_map.mpr ⟨x, hmem', rfl⟩
        rw [← eq_of_beq hk] at hin
        have : (t.map key).any (fun z => z == key y) = true :=
          List.any_eq_true.mpr ⟨key y, hin, by simp⟩
        rw [this] at hnotin
        cases hnotin
      rw [List.find?_cons_of_neg _ (by simp [hne])]
      exact ih hrest hmem'

/-- Whether a column option is matched by the analyzer when compared with
itself: exactly the three core kinds. -/
theorem sqlConstraintMatches_self {o : ColumnOption} (h : o.isCore = true) :
    sqlConstraintMatches o o = true := by
  cases o with
  | notNull => rfl
  | defaultVal v => rfl
  | unique p c => simp [sqlConstraintMatches]
  | otherOpt s => cases h

/-- Constraint comparison of a core-only option list against itself is
empty. -/
theorem sql_constraints_self (tn cn : String) (opts : List ColumnOption)
    (hcore : (opts.all ColumnOption.isCore) = true) :
    compare_column_constraints tn cn opts opts = [] := by
  unfold compare_column_constraints
  have h1 : (opts.filter fun o => ! opts.any fun n => sqlConstraintMatches o n) = [] := by
    rw [List.filter_eq_nil_iff]
    intro o ho
    have hm : (opts.any fun n => sqlConstraintMatches o n) = true :=
      List.any_eq_true.mpr ⟨o, ho,
        sqlConstraintMatches_self (List.all_eq_true.mp hcore o ho)⟩
    simp [hm]
  have h2 : (opts.filter fun n => ! opts.any fun o => sqlConstraintMatches o n) = [] := by
    rw [List.filter_eq_nil_iff]
    intro o ho
    have hm : (opts.any fun n => sqlConstraintMatches n o) = true :=
      List.any_eq_true.mpr ⟨o, ho,
        sqlConstraintMatches_self (List.all_eq_true.mp hcore o ho)⟩
    simp [hm]
  rw [h1, h2]
  rfl

/-- Well-formedness of a table's columns: unique names, core-kind
constraints. -/
def sqlColumnsWf (cols : List ColumnDef) : Bool :=
  nodupKeys (cols.map (·.name)) &&
    cols.all fun c => c.options.all ColumnOption.isCore

/-- The `CREATE TABLE` names of a statement list. -/
def sqlTableNames (ts : List SqlStatement) : List String :=
  ts.filterMap fun t =>
    match t with
    | .createTable n _ => some n
    | .otherStmt => none

/-- Well-formedness of a statement list: unique table names, well-formed
columns. -/
def sqlTablesWf (ts : List SqlStatement) : Bool :=
  nodupKeys (sqlTableNames ts) &&
    ts.all fun t =>
      match t with
      | .createTable _ cols => sqlColumnsWf cols
      | .otherStmt => true

/-- Column comparison of a well-formed column list against itself is empty. -/
theorem sql_columns_self (tn : String) (cols : List ColumnDef)
    (h : sqlColumnsWf cols = true) : compare_columns tn cols cols = [] := by
  obtain ⟨hnd, hall⟩ := Bool.and_eq_true _ _ ▸ h
  unfold compare_columns
  have hmain : ∀ col ∈ cols,
      (match cols.find? fun c => c.name == col.name with
       | some new_col =>
           (if col.data_type != new_col.data_type then
             [sqlTypeModification tn col new_col]
           else [])
           ++ compare_column_constraints tn col.name col.options new_col.options
       | none =>
           [{ change_type := .removal
              location := tn ++ "/" ++ col.name
              description := "Column '" ++ col.name ++ "' was removed"
              metadata := [("table", tn), ("column", col.name)] }]) = [] := by
    intro col hcol
    rw [find_self_by_key (·.name) hnd hcol]
    have hc := sql_constraints_self tn col.name col.options
      (List.all_eq_true.mp hall col hcol)
    simp [hc]
  have hflat : ((cols.map fun old_col =>
      match cols.find? fun c => c.name == old_col.name with
      | some new_col =>
          (if old_col.data_type != new_col.data_type then
            [sqlTypeModification tn old_col new_col]
          else [])
          ++ compare_column_constraints tn old_col.name old_col.options new_col.options
      | none =>
          [{ change_type := .removal
             location := tn ++ "/" ++ old_col.name
             description := "Column '" ++ old_col.name ++ "' was removed"
             metadata := [("table", tn), ("column", old_col.name)] }]).flatten) = [] := by
    rw [List.flatten_eq_nil_iff]
    intro x hx
    rcases List.mem_map.mp hx with ⟨col, hcol, rfl⟩
    exact hmain col hcol
  have hadd : (cols.filter fun c => ! cols.any fun o => o.name == c.name) = [] := by
    rw [List.filter_eq_nil_iff]
    intro c hc
    have : (cols.any fun o => o.name == c.name) = true :=
      List.any_eq_true.mpr ⟨c, hc, by simp⟩
    simp [this]
  rw [hflat, hadd]
  rfl

/-- `sqlTableNames` steps over a `CREATE TABLE` head. -/
theorem sqlTableNames_cons_create (n : String) (cols : List ColumnDef)
    (rest : List SqlStatement) :
    sqlTableNames (.createTable n cols :: rest) = n :: sqlTableNames rest := by
  unfold sqlTableNames
  rw [List.filterMap_cons]

/-- `sqlTableNames` steps over a non-`CREATE TABLE` head. -/
theorem sqlTableNames_cons_other (rest : List SqlStatement) :
    sqlTableNames (.otherStmt :: rest) = sqlTableNames rest := by
  unfold sqlTableNames
  rw [List.filterMap_cons]

/-- A statement list with unique table names finds each of its own
`CREATE TABLE` statements by name. -/
theorem find_create_table_self :
    ∀ {ts : List SqlStatement}, nodupKeys (sqlTableNames ts) = true →
    ∀ {name : String} {cols : List ColumnDef},
      SqlStatement.createTable name cols ∈ ts →
      ts.find? (isCreateTableNamed name) = some (.createTable name cols) := by
  intro ts
  induction ts with
  | nil => intro _ _ _ h; cases h
  | cons t0 rest ih =>
    intro hnd name cols hmem
    cases t0 with
    | createTable n0 cols0 =>
      rw [sqlTableNames_cons_create] at hnd
      unfold nodupKeys at hnd
      obtain ⟨hnotin, hrest⟩ := Bool.and_eq_true _ _ ▸ hnd
      rcases List.mem_cons.mp hmem with heq | hmem'
      · rcases SqlStatement.createTable.inj heq with ⟨rfl, rfl⟩
        exact List.find?_cons_of_pos _ (by simp [isCreateTableNamed])
      · have hne : (n0 == name) = false := by
          rw [Bool.eq_false_iff]
          intro hk
          have hin : name ∈ sqlTableNames rest :=
            List.mem_filterMap.mpr ⟨.createTable name cols, hmem', rfl⟩
          rw [← eq_of_beq hk] at hin
          have hany : (sqlTableNames rest).any (fun x => x == n0) = true :=
            List.any_eq_true.mpr ⟨n0, hin, by simp⟩
          rw [hany] at hnotin
          cases hnotin
        rw [List.find?_cons_of_neg _ (by simp [isCreateTableNamed, hne])]
        exact ih hrest hmem'
    | otherStmt =>
      rw [sqlTableNames_cons_other] at hnd
      have hmem' : SqlStatement.createTable name cols ∈ rest := by
        rcases List.mem_cons.mp hmem with heq | hmem'
        · cases heq
        · exact hmem'
      rw [List.find?_cons_of_neg _ (by simp [isCreateTableNamed])]
      exact ih hnd hmem'

/-- Schema comparison of a well-formed statement list against itself is
empty. -/
theorem sql_compare_self (ts : List SqlStatement) (h : sqlTablesWf ts = true) :
    sql_compare_schemas (.ok ts) (.ok ts) = [] := by
  obtain ⟨hnd, hall⟩ := Bool.and_eq_true _ _ ▸ h
  unfold sql_compare_schemas
  have hflat : ((ts.map fun ot =>
      match ot with
      | .createTable name old_columns =>
        match ts.find? (isCreateTableNamed name) with
        | some (.createTable _ new_columns) =>
            compare_columns name old_columns new_columns
        | some .otherStmt => []
        | none =>
            [{ change_type := .removal
               location := "table/" ++ name
               description := "Table '" ++ name ++ "' was removed"
               metadata := [("table", name)] }]
      | .otherStmt => []).flatten) = [] := by
    rw [List.flatten_eq_nil_iff]
    intro x hx
    rcases List.mem_map.mp hx with ⟨t0, ht0, rfl⟩
    cases t0 with
    | createTable n0 cols0 =>
      have hf := find_create_table_self hnd ht0
      simp only [hf]
      exact sql_columns_self n0 cols0 (List.all_eq_true.mp hall _ ht0)
    | otherStmt => rfl
  have hadd : ((ts.map fun nt =>
      match nt with
      | .createTable name _ =>
          if ts.any (isCreateTableNamed name) then []
          else
            [{ change_type := .addition
               location := "table/" ++ name
               description := "New table '" ++ name ++ "' was added"
               metadata := [("table", name)] }]
      | .otherStmt => ([] : List SchemaChange)).flatten) = [] := by
    rw [List.flatten_eq_nil_iff]
    intro x hx
    rcases List.mem_map.mp hx with ⟨t0, ht0, rfl⟩
    cases t0 with
    | createTable n0 cols0 =>
      have hany : ts.any (isCreateTableNamed n0) = true :=
        List.any_eq_true.mpr ⟨.createTable n0 cols0, ht0, by simp [isCreateTableNamed]⟩
      simp only [hany]
      rfl
    | otherStmt => rfl
  simp only [hflat, hadd]
  rfl

/-- Well-formedness of a descriptor set: unique message names, per-message
unique field names. -/
def protoWf (fd : FileDescriptorProto) : Bool :=
  nodupKeys (fd.message_type.map (·.name)) &&
    fd.message_type.all fun m => nodupKeys (m.field.map (·.name))

/-- Field comparison of a message with unique field names against itself is
empty. -/
theorem proto_fields_self (path : String) (m : DescriptorProto)
    (h : nodupKeys (m.field.map (·.name)) = true) :
    proto_compare_fields path m m = [] := by
  unfold proto_compare_fields
  refine List.append_eq_nil.mpr ⟨?_, ?_⟩
  · rw [List.flatten_eq_nil_iff]
    intro x hx
    rcases List.mem_map.mp hx with ⟨fl, hfl, rfl⟩
    have hf := find_self_by_key (·.name) h hfl
    simp [hf]
  · rw [List.map_eq_nil_iff, List.filter_eq_nil_iff]
    intro f hf
    have : (m.field.any fun o => o.name == f.name) = true :=
      List.any_eq_true.mpr ⟨f, hf, by simp⟩
    simp [this]

/-- Descriptor comparison of a well-formed descriptor set against itself is
empty. -/
theorem proto_compare_self (fd : FileDescriptorProto) (h : protoWf fd = true) :
    proto_compare_descriptors fd fd "" = [] := by
  obtain ⟨hnd, hall⟩ := Bool.and_eq_true _ _ ▸ h
  unfold proto_compare_descriptors
  refine List.append_eq_nil.mpr ⟨?_, ?_⟩
  · rw [List.flatten_eq_nil_iff]
    intro x hx
    rcases List.mem_map.mp hx with ⟨om, hom, rfl⟩
    have hf := find_self_by_key (·.name) hnd hom
    simp only [hf]
    exact proto_fields_self "" om (List.all_eq_true.mp hall om hom)
  · rw [List.map_eq_nil_iff, List.filter_eq_nil_iff]
    intro mm hm
    have : (fd.message_type.any fun o => o.name == mm.name) = true :=
      List.any_eq_true.mpr ⟨mm, hm, by simp⟩
    simp [this]

mutual
/-- Well-formedness of a JSON value: object keys unique at every level
(the guarantee of a map-backed parse). -/
def Json.wf : Json → Bool
  | .arr xs => JsonList.wfL xs
  | .obj fs => nodupKeys (JsonFields.keys fs) && JsonFields.wfF fs
  | _ => true
/-- Well-formedness of array elements. -/
def JsonList.wfL : JsonList → Bool
  | .nil => true
  | .cons h t => Json.wf h && JsonList.wfL t
/-- Well-formedness of object field values. -/
def JsonFields.wfF : JsonFields → Bool
  | .fnil => true
  | .fcons _ v t => Json.wf v && JsonFields.wfF t
end

/-- An entry's key is among the object's keys. -/
theorem mem_keys_of_mem_entries : ∀ {f : JsonFields} {p : String × Json},
    p ∈ JsonFields.entries f → p.1 ∈ JsonFields.keys f
  | .fnil, _, h => by cases h
  | .fcons k v t, p, h => by
    unfold JsonFields.entries at h
    unfold JsonFields.keys
    rcases List.mem_cons.mp h with rfl | h2
    · exact List.mem_cons_self _ _
    · exact List.mem_cons_of_mem _ (mem_keys_of_mem_entries h2)

/-- A key among the object's keys is contained. -/
theorem containsKey_of_mem_keys : ∀ {f : JsonFields} {k : String},
    k ∈ JsonFields.keys f → JsonFields.containsKey k f = true
  | .fnil, _, h => by cases h
  | .fcons k0 v t, k, h => by
    unfold JsonFields.keys at h
    unfold JsonFields.containsKey
    rcases List.mem_cons.mp h with rfl | h2
    · simp
    · simp [containsKey_of_mem_keys h2]

/-- An object with unique keys looks every one of its own entries up to that
entry's value. -/
theorem json_lookup_self :
    ∀ {f : JsonFields}, nodupKeys (JsonFields.keys f) = true →
    ∀ {p : String × Json}, p ∈ JsonFields.entries f →
      JsonFields.lookup p.1 f = some p.2
  | .fnil, _, _, h => by cases h
  | .fcons k0 v0 t, hnd, p, hmem => by
    rw [show JsonFields.keys (.fcons k0 v0 t) = k0 :: JsonFields.keys t from rfl] at hnd
    unfold nodupKeys at hnd
    obtain ⟨hnotin, hrest⟩ := Bool.and_eq_true _ _ ▸ hnd
    unfold JsonFields.entries at hmem
    rcases List.mem_cons.mp hmem with rfl | hmem'
    · simp [JsonFields.lookup]
    · have hne : (k0 == p.1) = false := by
        rw [Bool.eq_false_iff]
        intro hk
        have hin : p.1 ∈ JsonFields.keys t := mem_keys_of_mem_entries hmem'
        rw [← eq_of_beq hk] at hin
        have hany : (JsonFields.keys t).any (fun x => x == k0) = true :=
          List.any_eq_true.mpr ⟨k0, hin, by simp⟩
        rw [hany] at hnotin
        cases hnotin
      unfold JsonFields.lookup
      rw [hne]
      exact json_lookup_self hrest hmem'

/-- The addition scan over an object whose keys all occur in the old object
emits nothing. -/
theorem json_added_self_aux (F : JsonFields) :
    ∀ (f : JsonFields) (path : String),
      (∀ k ∈ JsonFields.keys f, JsonFields.containsKey k F = true) →
      json_added_fields F f path = []
  | .fnil, _, _ => rfl
  | .fcons k v t, path, h => by
    unfold json_added_fields
    rw [h k (by unfold JsonFields.keys; exact List.mem_cons_self _ _)]
    rw [json_added_self_aux F t path fun k2 hk2 =>
      h k2 (by unfold JsonFields.keys; exact List.mem_cons_of_mem _ hk2)]
    rfl

/-- The addition scan of an object against itself emits nothing. -/
theorem json_added_self (F : JsonFields) (path : String) :
    json_added_fields F F path = [] :=
  json_added_self_aux F F path fun _ hk => containsKey_of_mem_keys hk

mutual
/-- Comparing a well-formed JSON value with itself yields no changes. -/
theorem json_compare_self : ∀ (j : Json) (path : String), Json.wf j = true →
    json_compare_schemas j j path = []
  | .null, path, _ => by simp [json_compare_schemas]
  | .jbool b, path, _ => by simp [json_compare_schemas]
  | .num n, path, _ => by simp [json_compare_schemas]
  | .str s, path, _ => by simp [json_compare_schemas]
  | .arr xs, path, h => by
    unfold json_compare_schemas
    rw [json_elems_self xs path 0 (by simpa [Json.wf] using h)]
    simp
  | .obj fs, path, h => by
    have hh : nodupKeys (JsonFields.keys fs) = true ∧ JsonFields.wfF fs = true := by
      simpa [Json.wf, Bool.and_eq_true] using h
    unfold json_compare_schemas
    rw [json_fields_self fs fs path (fun p hp => json_lookup_self hh.1 hp) hh.2,
      json_added_self fs path]
    rfl
/-- Comparing an object's fields against a container that resolves each
entry to itself yields no changes. -/
theorem json_fields_self : ∀ (f F : JsonFields) (path : String),
    (∀ p ∈ JsonFields.entries f, JsonFields.lookup p.1 F = some p.2) →
    JsonFields.wfF f = true → json_compare_fields f F path = []
  | .fnil, _, _, _, _ => rfl
  | .fcons k v t, F, path, hF, hwf => by
    obtain ⟨hv, ht⟩ := Bool.and_eq_true _ _ ▸ (by simpa [JsonFields.wfF] using hwf :
      (Json.wf v && JsonFields.wfF t) = true)
    have hkv : JsonFields.lookup k F = some v :=
      hF (k, v) (by unfold JsonFields.entries; exact List.mem_cons_self _ _)
    unfold json_compare_fields
    simp only [hkv]
    rw [json_compare_self v (path ++ "/" ++ k) hv,
      json_fields_self t F path
        (fun p hp => hF p (by unfold JsonFields.entries; exact List.mem_cons_of_mem _ hp))
        ht]
    rfl
/-- Comparing array elements against themselves yields no changes. -/
theorem json_elems_self : ∀ (l : JsonList) (path : String) (idx : Nat),
    JsonList.wfL l = true → json_compare_elems l l path idx = []
  | .nil, _, _, _ => rfl
  | .cons hj t, path, idx, h => by
    obtain ⟨h1, h2⟩ := Bool.and_eq_true _ _ ▸ (by simpa [JsonList.wfL] using h :
      (Json.wf hj && JsonList.wfL t) = true)
    unfold json_compare_elems
    rw [json_compare_self hj (path ++ "/" ++ toString idx) h1,
      json_elems_self t path (idx + 1) h2]
    rfl
end

/-- The names of the inline (non-reference) parameters. -/
def inlineParamNames (ps : List (RefOr Parameter)) : List String :=
  ps.filterMap fun p =>
    match p with
    | .item q => some q.name
    | .reference _ => none

/-- Well-formedness of an operation: unique inline parameter names, unique
response status keys. -/
def operationWf (op : Operation) : Bool :=
  nodupKeys (inlineParamNames op.parameters) && nodupKeys (op.responses.map (·.1))

/-- Well-formedness of an optional operation slot. -/
def optOpWf : Option Operation → Bool
  | none => true
  | some op => operationWf op

/-- Well-formedness of a path item: all seven slots. -/
def pathItemWf (it : PathItem) : Bool :=
  optOpWf it.get && optOpWf it.post && optOpWf it.put && optOpWf it.delete &&
    optOpWf it.patch && optOpWf it.head && optOpWf it.options

/-- Well-formedness of a components section: unique names (an `IndexMap`
guarantee). -/
def componentsWf : Option Components → Bool
  | none => true
  | some c =>
      nodupKeys (c.schemas.map (·.1)) && nodupKeys (c.security_schemes.map (·.1))

/-- Well-formedness of an OpenAPI document. -/
def openapiWf (s : OpenAPI) : Bool :=
  nodupKeys (s.paths.map (·.1)) &&
    (s.paths.all fun pe =>
      match pe.2 with
      | .item it => pathItemWf it
      | .reference _ => true) &&
    componentsWf s.components

/-- A parameter list with unique inline names finds each of its own inline
parameters by name. -/
theorem find_param_self :
    ∀ {ps : List (RefOr Parameter)}, nodupKeys (inlineParamNames ps) = true →
    ∀ {q : Parameter}, RefOr.item q ∈ ps →
      (ps.find? fun p =>
        match p with
        | .item r => r.name == q.name
        | .reference _ => false) = some (.item q)
  | [], _, _, h => by cases h
  | .item r :: rest, hnd, q, hmem => by
    rw [show inlineParamNames (.item r :: rest) = r.name :: inlineParamNames rest
      from by unfold inlineParamNames; rw [List.filterMap_cons]] at hnd
    unfold nodupKeys at hnd
    obtain ⟨hnotin, hrest⟩ := Bool.and_eq_true _ _ ▸ hnd
    rcases List.mem_cons.mp hmem with heq | hmem'
    · rcases RefOr.item.inj heq with rfl
      exact List.find?_cons_of_pos _ (by simp)
    · have hne : (r.name == q.name) = false := by
        rw [Bool.eq_false_iff]
        intro hk
        have hin : q.name ∈ inlineParamNames rest :=
          List.mem_filterMap.mpr ⟨.item q, hmem', rfl⟩
        rw [← eq_of_beq hk] at hin
        have hany : (inlineParamNames rest).any (fun x => x == r.name) = true :=
          List.any_eq_true.mpr ⟨r.name, hin, by simp⟩
        rw [hany] at hnotin
        cases hnotin
      rw [List.find?_cons_of_neg _ (by simp [hne])]
      exact find_param_self hrest hmem'
  | .reference rr :: rest, hnd, q, hmem => by
    rw [show inlineParamNames (.reference rr :: rest) = inlineParamNames rest
      from by unfold inlineParamNames; rw [List.filterMap_cons]] at hnd
    have hmem' : RefOr.item q ∈ rest := by
      rcases List.mem_cons.mp hmem with h | h
      · cases h
      · exact h
    rw [List.find?_cons_of_neg _ (by simp)]
    exact find_param_self hnd hmem'

/-- Parameter comparison of a well-formed list against itself is empty. -/
theorem openapi_params_self (path method : String) (ps : List (RefOr Parameter))
    (h : nodupKeys (inlineParamNames ps) = true) :
    openapi_compare_parameters path method ps ps = [] := by
  unfold openapi_compare_parameters
  rw [List.flatten_eq_nil_iff]
  intro x hx
  rcases List.mem_map.mp hx with ⟨op, hop, rfl⟩
  cases op with
  | reference r => rfl
  | item q =>
    have hf := find_param_self h hop
    simp [hf]

/-- Response comparison of a unique-keyed map against itself is empty. -/
theorem openapi_responses_self (path method : String)
    (rs : List (String × String)) (h : nodupKeys (rs.map (·.1)) = true) :
    openapi_compare_responses path method rs rs = [] := by
  unfold openapi_compare_responses
  refine List.append_eq_nil.mpr ⟨?_, ?_⟩
  · rw [List.flatten_eq_nil_iff]
    intro x hx
    rcases List.mem_map.mp hx with ⟨sr, hsr, rfl⟩
    have hl := alookup_self h hsr
    simp [hl]
  · rw [List.map_eq_nil_iff, List.filter_eq_nil_iff]
    intro sr hsr
    simp [acontains_of_mem hsr]

/-- Request-body comparison of a body against itself is empty. -/
theorem openapi_bodies_self (path method : String) (b : Option (RefOr String)) :
    openapi_compare_request_bodies path method b b = [] := by
  cases b with
  | none => rfl
  | some x => simp [openapi_compare_request_bodies]

/-- Operation-details comparison of a well-formed operation against itself
is empty. -/
theorem openapi_operation_details_self (path method : String) (op : Operation)
    (h : operationWf op = true) :
    openapi_compare_operation_details path method op op = [] := by
  obtain ⟨h1, h2⟩ := Bool.and_eq_true _ _ ▸ h
  unfold openapi_compare_operation_details
  rw [openapi_params_self path method op.parameters h1,
    openapi_bodies_self path method op.request_body,
    openapi_responses_self path method op.responses h2]
  rfl

/-- The slot `get_operation` reads is well-formed in a well-formed path
item. -/
theorem get_operation_wf {it : PathItem} (h : pathItemWf it = true)
    (method : String) {op : Operation}
    (hop : get_operation it method = some op) : operationWf op = true := by
  unfold pathItemWf at h
  simp only [Bool.and_eq_true] at h
  obtain ⟨⟨⟨⟨⟨⟨hg, hp⟩, hpu⟩, hd⟩, hpa⟩, hh⟩, ho⟩ := h
  unfold get_operation at hop
  split_ifs at hop
  · rw [hop] at hg; simpa [optOpWf] using hg
  · rw [hop] at hp; simpa [optOpWf] using hp
  · rw [hop] at hpu; simpa [optOpWf] using hpu
  · rw [hop] at hd; simpa [optOpWf] using hd
  · rw [hop] at hpa; simpa [optOpWf] using hpa
  · rw [hop] at hh; simpa [optOpWf] using hh
  · rw [hop] at ho; simpa [optOpWf] using ho

/-- Method-by-method comparison of a well-formed path item against itself is
empty. -/
theorem openapi_operations_self (path : String) (it : PathItem)
    (h : pathItemWf it = true) :
    openapi_compare_operations path it it = [] := by
  unfold openapi_compare_operations
  rw [List.flatten_eq_nil_iff]
  intro x hx
  rcases List.mem_map.mp hx with ⟨method, _, rfl⟩
  cases hop : get_operation it method with
  | none => rfl
  | some op =>
    have hw := get_operation_wf h method hop
    obtain ⟨h1, _⟩ := Bool.and_eq_true _ _ ▸ hw
    show openapi_compare_parameters path method op.parameters op.parameters
        ++ openapi_compare_operation_details path method op op = []
    rw [openapi_params_self path method op.parameters h1,
      openapi_operation_details_self path method op hw]
    rfl

/-- The path-walk of `analyze_compatibility` on a well-formed document
against itself is empty. -/
theorem openapi_analyze_self (s : OpenAPI) (h : openapiWf s = true) :
    openapi_analyze_changes s s = [] := by
  obtain ⟨⟨hnd, hall⟩, _⟩ :
      (nodupKeys (s.paths.map (·.1)) = true
        ∧ (s.paths.all fun pe =>
            match pe.2 with
            | .item it => pathItemWf it
            | .reference _ => true) = true)
      ∧ componentsWf s.components = true := by
    simpa [openapiWf, Bool.and_eq_true] using h
  unfold openapi_analyze_changes
  refine List.append_eq_nil.mpr ⟨?_, ?_⟩
  · rw [List.flatten_eq_nil_iff]
    intro x hx
    rcases List.mem_map.mp hx with ⟨pe, hpe, rfl⟩
    have hl : alookup pe.1 s.paths = some pe.2 := alookup_self hnd hpe
    have hwf := List.all_eq_true.mp hall pe hpe
    cases hpe2 : pe.2 with
    | reference r => rfl
    | item it =>
      rw [hpe2] at hl hwf
      simp only [hl]
      exact openapi_operations_self pe.1 it (by simpa using hwf)
  · rw [List.flatten_eq_nil_iff]
    intro x hx
    rcases List.mem_map.mp hx with ⟨pe, hpe, rfl⟩
    cases hpe2 : pe.2 with
    | reference r => rfl
    | item it => simp [acontains_of_mem hpe]

/-- The `compare_paths` walk on a well-formed document against itself is
empty. -/
theorem openapi_paths_self (s : OpenAPI) (h : openapiWf s = true) :
    openapi_compare_paths s s = [] := by
  obtain ⟨⟨hnd, hall⟩, _⟩ :
      (nodupKeys (s.paths.map (·.1)) = true
        ∧ (s.paths.all fun pe =>
            match pe.2 with
            | .item it => pathItemWf it
            | .reference _ => true) = true)
      ∧ componentsWf s.components = true := by
    simpa [openapiWf, Bool.and_eq_true] using h
  unfold openapi_compare_paths
  refine List.append_eq_nil.mpr ⟨?_, ?_⟩
  · rw [List.flatten_eq_nil_iff]
    intro x hx
    rcases List.mem_map.mp hx with ⟨pe, hpe, rfl⟩
    have hl : alookup pe.1 s.paths = some pe.2 := alookup_self hnd hpe
    have hwf := List.all_eq_true.mp hall pe hpe
    simp only [hl]
    unfold openapi_compare_path_items
    cases hpe2 : pe.2 with
    | reference r => rfl
    | item it =>
      rw [hpe2] at hwf
      exact openapi_operations_self pe.1 it (by simpa using hwf)
  · rw [List.map_eq_nil_iff, List.filter_eq_nil_iff]
    intro pe hpe
    simp [acontains_of_mem hpe]

/-- `compare_components` on a well-formed document against itself is empty. -/
theorem openapi_components_self (s : OpenAPI) (h : openapiWf s = true) :
    openapi_compare_components s s = [] := by
  obtain ⟨_, hcomp⟩ :
      (nodupKeys (s.paths.map (·.1)) = true
        ∧ (s.paths.all fun pe =>
            match pe.2 with
            | .item it => pathItemWf it
            | .reference _ => true) = true)
      ∧ componentsWf s.components = true := by
    simpa [openapiWf, Bool.and_eq_true] using h
  unfold openapi_compare_components
  cases hc : s.components with
  | none => rfl
  | some c =>
    rw [hc] at hcomp
    have hcomp2 : (nodupKeys (c.schemas.map fun x => x.1)
        && nodupKeys (c.security_schemes.map fun x => x.1)) = true := by
      simpa [componentsWf] using hcomp
    obtain ⟨hs, hss⟩ := Bool.and_eq_true _ _ ▸ hcomp2
    refine List.append_eq_nil.mpr ⟨?_, ?_⟩
    · rw [List.flatten_eq_nil_iff]
      intro x hx
      rcases List.mem_map.mp hx with ⟨se, hse, rfl⟩
      have hl := alookup_self hs hse
      simp [hl]
    · rw [List.map_eq_nil_iff, List.filter_eq_nil_iff]
      intro se hse
      simp [acontains_of_mem hse]

/-- `compare_security` on a well-formed document against itself is empty. -/
theorem openapi_security_self (s : OpenAPI) (h : openapiWf s = true) :
    openapi_compare_security s s = [] := by
  obtain ⟨_, hcomp⟩ :
      (nodupKeys (s.paths.map (·.1)) = true
        ∧ (s.paths.all fun pe =>
            match pe.2 with
            | .item it => pathItemWf it
            | .reference _ => true) = true)
      ∧ componentsWf s.components = true := by
    simpa [openapiWf, Bool.and_eq_true] using h
  unfold openapi_compare_security
  cases hc : s.components with
  | none => rfl
  | some c =>
    rw [hc] at hcomp
    have hcomp2 : (nodupKeys (c.schemas.map fun x => x.1)
        && nodupKeys (c.security_schemes.map fun x => x.1)) = true := by
      simpa [componentsWf] using hcomp
    obtain ⟨hs, hss⟩ := Bool.and_eq_true _ _ ▸ hcomp2
    rw [List.flatten_eq_nil_iff]
    intro x hx
    rcases List.mem_map.mp hx with ⟨se, hse, rfl⟩
    have hl := alookup_self hss hse
    simp [hl]

/-- The full `compare_apis` walk on a well-formed document against itself is
empty. -/
theorem openapi_apis_self (s : OpenAPI) (h : openapiWf s = true) :
    openapi_compare_apis s s = [] := by
  unfold openapi_compare_apis
  rw [openapi_paths_self s h, openapi_components_self s h,
    openapi_security_self s h]
  rfl

/-- A table with a column carrying a CHECK constraint — a parseable column
option whose kind the constraint matcher does not name (`_ => false`). -/
def checkTable : SqlStatement :=
  .createTable "t"
    [{ name := "a", data_type := "Int", options := [.otherOpt "Check(a > 0)"] }]

/-- C6 counterexample: comparing a parseable SQL schema against itself is
not always empty — a column option outside the three matched kinds (here a
CHECK constraint) is reported as a `Removal` plus an `Addition` even against
itself, so the self-report holds two changes (score 80, still compatible)
and the self-migration-plan has impact 100 and `is_breaking = true`. -/
theorem sql_identity_counterexample :
    ((sql_analyze_compatibility (.ok [checkTable]) (.ok [checkTable])).toOption.map
      fun r => (r.changes.length, r.compatibility_score, r.is_compatible))
      = some (2, 80, true)
    ∧ ((sql_generate_migration_path "1.0.0" "1.0.0"
        (.ok [checkTable]) (.ok [checkTable])).toOption.map
      fun p => (p.impact_score, p.is_breaking)) = some (100, true)
    ∧ sql_compare_schemas (.ok [checkTable]) (.ok [checkTable]) ≠ [] :=
  ⟨rfl, rfl, by decide⟩

/-- C6 amended: for every dialect, comparing a parsed schema against itself
yields the empty change sequence, score 100, `is_compatible = true`, impact
0 and `is_breaking = false`, provided the schema's by-name collections carry
no duplicate names (object keys, paths/parameters/response codes/component
names, tables/columns, messages/fields) and, for SQL, every column
constraint is of the NotNull/Default/Unique kind — any other constraint kind
breaks the identity (see the counterexample). -/
theorem identity_comparison (v : String)
    (j : Json) (hj : Json.wf j = true)
    (ts : List SqlStatement) (hts : sqlTablesWf ts = true)
    (fd : FileDescriptorProto) (hfd : protoWf fd = true)
    (s : OpenAPI) (hs : openapiWf s = true) :
    json_analyze_compatibility (.ok j) (.ok j)
      = .ok { changes := [], compatibility_score := 100, is_compatible := true,
              issues := [], metadata := [] }
    ∧ json_generate_migration_path v v (.ok j) (.ok j)
      = .ok { source_version := v, target_version := v, changes := [],
              impact_score := 0, is_breaking := false }
    ∧ sql_analyze_compatibility (.ok ts) (.ok ts)
      = .ok { changes := [], compatibility_score := 100, is_compatible := true,
              issues := [], metadata := [] }
    ∧ sql_generate_migration_path v v (.ok ts) (.ok ts)
      = .ok { source_version := v, target_version := v, changes := [],
              impact_score := 0, is_breaking := false }
    ∧ proto_analyze_compatibility fd fd
      = some { changes := [], compatibility_score := 100, is_compatible := true,
               issues := [], metadata := [] }
    ∧ proto_generate_migration_path v v fd fd
      = { source_version := v, target_version := v, changes := [],
          impact_score := 0, is_breaking := false }
    ∧ openapi_analyze_compatibility (.ok s) (.ok s)
      = .ok { changes := [], compatibility_score := 100, is_compatible := true,
              issues := []
              metadata := [("new_version", s.info_version),
                ("old_version", s.info_version)] }
    ∧ openapi_generate_migration_path v v (.ok s) (.ok s)
      = .ok { source_version := v, target_version := v, changes := [],
              impact_score := 0, is_breaking := false } := by
  have hj' := json_compare_self j "" hj
  have hts' := sql_compare_self ts hts
  have hfd' := proto_compare_self fd hfd
  have hana := openapi_analyze_self s hs
  have hapi := openapi_apis_self s hs
  refine ⟨?_, ?_, ?_, ?_, ?_, ?_, ?_, ?_⟩
  · unfold json_analyze_compatibility
    simp only [hj']
    rfl
  · unfold json_generate_migration_path
    simp only [hj']
    rfl
  · unfold sql_analyze_compatibility
    simp only [hts']
    rfl
  · unfold sql_generate_migration_path
    simp only [hts']
    rfl
  · unfold proto_analyze_compatibility
    simp only [hfd']
    rfl
  · unfold proto_generate_migration_path
    simp only [hfd']
    rfl
  · unfold openapi_analyze_compatibility
    simp only [hana]
    rfl
  · unfold openapi_generate_migration_path
    simp only [hapi]
    rfl

/-- A one-table SQL schema with a NOT NULL column, for the witness. -/
def usersTable : SqlStatement :=
  .createTable "users" [{ name := "id", data_type := "Int", options := [.notNull] }]

/-- A one-message protobuf descriptor, for the witness. -/
def userDescriptor : FileDescriptorProto :=
  { message_type := [{ name := "User", field := [{ name := "id", type_tag := "Int32" }] }] }

/-- Witness for the amended C6 at concrete minimal schemas of each dialect. -/
theorem identity_comparison_witness :
    sql_analyze_compatibility (.ok [usersTable]) (.ok [usersTable])
      = .ok { changes := [], compatibility_score := 100, is_compatible := true,
              issues := [], metadata := [] } :=
  (identity_comparison "1.0.0" (.obj .fnil) (by decide)
    [usersTable] (by decide)
    userDescriptor (by decide)
    apiLimitOld (by decide)).2.2.1

end SchemaDiff
